import Mathlib

/-!
Shallow embedding of the go-software-raid engine (RAID 0/1/5 over file-backed
disks) and proofs of the specification's claims about it.

The state of an array is captured by `ArraySt`: per-disk failure flags, block
contents and I/O counters.  Every operation of the Go code that touches disk
state is translated as a function returning the new state together with an
`Except String` result, mirroring Go's `(value, error)` convention.  Bytes are
modelled as natural numbers combined with `Nat.xor`; blocks are `List Nat`.
-/

namespace SoftRaid

/-- `xorBytes dst src` from the source: `dst[i] ^= src[i]` for
`i < min (len dst) (len src)`; the remainder of `dst` is unchanged. -/
def xorBytes : List Nat → List Nat → List Nat
  | [], _ => []
  | d :: ds, [] => d :: ds
  | d :: ds, s :: ss => (d ^^^ s) :: xorBytes ds ss

/-- Go's `copy(dst, src)`: the first `min (len dst) (len src)` entries of `dst`
are replaced by those of `src`.  Used for `copy(parity, data)` where the
destination is a fresh zero block. -/
def copyInto (dst src : List Nat) : List Nat :=
  src.take dst.length ++ dst.drop src.length

/-- The mutable state of a `RAIDArray`'s member disks: geometry, per-disk
failure flags, per-disk block contents (`blocks d p` is the content of
physical block `p` on disk `d`) and the per-disk I/O counters. -/
structure ArraySt where
  numDisks : Nat
  blockSize : Nat
  blocksPerDisk : Nat
  failed : Nat → Bool
  blocks : Nat → Nat → List Nat
  readCount : Nat → Nat
  writeCount : Nat → Nat

/-- `Disk.ReadBlock`: rejected if the disk is failed or the block ID is out of
bounds; otherwise returns the block's bytes and bumps the read counter. -/
def diskReadBlock (a : ArraySt) (d p : Nat) : ArraySt × Except String (List Nat) :=
  if a.failed d then (a, .error "disk is failed")
  else if p < a.blocksPerDisk then
    ({ a with readCount := fun d2 => if d2 = d then a.readCount d + 1 else a.readCount d2 },
      .ok (a.blocks d p))
  else (a, .error "block ID out of bounds")

/-- `Disk.WriteBlock`: rejected if the disk is failed, the block ID is out of
bounds, or the buffer length differs from the block size; otherwise stores the
bytes and bumps the write counter. -/
def diskWriteBlock (a : ArraySt) (d p : Nat) (data : List Nat) : ArraySt × Except String Unit :=
  if a.failed d then (a, .error "disk is failed")
  else if a.blocksPerDisk ≤ p then (a, .error "block ID out of bounds")
  else if data.length ≠ a.blockSize then (a, .error "data size does not match block size")
  else
    ({ a with
        blocks := fun d2 p2 => if d2 = d ∧ p2 = p then data else a.blocks d2 p2,
        writeCount := fun d2 => if d2 = d then a.writeCount d + 1 else a.writeCount d2 },
      .ok ())

/-- `Disk.SetFailed`. -/
def setFailed (a : ArraySt) (d : Nat) (b : Bool) : ArraySt :=
  { a with failed := fun d2 => if d2 = d then b else a.failed d2 }

/-! ### RAID 5 addressing (from `raid5Impl.writeBlock` / `readBlock`) -/

/-- `stripeNum := logicalBlockID / (numDisks - 1)`. -/
def stripeOf (numDisks lbid : Nat) : Nat := lbid / (numDisks - 1)

/-- `stripeOffset := logicalBlockID % (numDisks - 1)`. -/
def stripeOffsetOf (numDisks lbid : Nat) : Nat := lbid % (numDisks - 1)

/-- `parityDisk := stripeNum % numDisks`. -/
def parityDiskOf (numDisks lbid : Nat) : Nat := stripeOf numDisks lbid % numDisks

/-- The skip-over-parity adjustment used throughout the level-5 engine:
`diskIdx := i; if diskIdx >= parityDisk { diskIdx++ }`. -/
def skipParity (parityDisk i : Nat) : Nat := if parityDisk ≤ i then i + 1 else i

/-- `dataDisk := stripeOffset; if dataDisk >= parityDisk { dataDisk++ }`. -/
def dataDiskOf (numDisks lbid : Nat) : Nat :=
  skipParity (parityDiskOf numDisks lbid) (stripeOffsetOf numDisks lbid)

/-! ### RAID 5 engine -/

/-- The parity-computation loop of `raid5Impl.writeBlock`: for each data
position `i` other than `stripeOffset`, skip failed siblings and XOR the
sibling's current block into the parity accumulator. -/
def parityLoop (sn off pd : Nat) :
    List Nat → List Nat → ArraySt → ArraySt × Except String (List Nat)
  | [], parity, a => (a, .ok parity)
  | i :: rest, parity, a =>
    if i = off then parityLoop sn off pd rest parity a
    else
      let diskIdx := skipParity pd i
      if a.failed diskIdx then parityLoop sn off pd rest parity a
      else
        match diskReadBlock a diskIdx sn with
        | (a1, .error e) => (a1, .error ("cannot calculate parity: " ++ e))
        | (a1, .ok blockData) => parityLoop sn off pd rest (xorBytes parity blockData) a1

/-- `raid5Impl.writeBlock`: compute the stripe's new parity from the new data
and the current sibling blocks, write parity (unless the parity disk is
failed), then write the data block. -/
def writeBlock5 (a : ArraySt) (lbid : Nat) (data : List Nat) : ArraySt × Except String Unit :=
  let sn := stripeOf a.numDisks lbid
  let off := stripeOffsetOf a.numDisks lbid
  let pd := sn % a.numDisks
  let dd := skipParity pd off
  match parityLoop sn off pd (List.range (a.numDisks - 1)) (copyInto (List.replicate a.blockSize 0) data) a with
  | (a1, .error e) => (a1, .error e)
  | (a1, .ok parity) =>
    match (if a1.failed pd then (a1, .ok ()) else diskWriteBlock a1 pd sn parity) with
    | (a2, .error e) => (a2, .error ("failed to write parity: " ++ e))
    | (a2, .ok _) =>
      match diskWriteBlock a2 dd sn data with
      | (a3, .error e) => (a3, .error ("failed to write data: " ++ e))
      | (a3, .ok _) => (a3, .ok ())

/-- The reconstruction loop of `raid5Impl.reconstructBlock`: XOR into the
parity block every member other than the parity disk and the missing disk,
failing if any of them is failed or errors. -/
def reconLoop (sn missingDisk pd : Nat) :
    List Nat → List Nat → ArraySt → ArraySt × Except String (List Nat)
  | [], reconstructed, a => (a, .ok reconstructed)
  | i :: rest, reconstructed, a =>
    if i = pd ∨ i = missingDisk then reconLoop sn missingDisk pd rest reconstructed a
    else if a.failed i then (a, .error "cannot reconstruct: multiple disk failures")
    else
      match diskReadBlock a i sn with
      | (a1, .error e) => (a1, .error ("failed to read disk for reconstruction: " ++ e))
      | (a1, .ok blockData) => reconLoop sn missingDisk pd rest (xorBytes reconstructed blockData) a1

/-- `raid5Impl.reconstructBlock`: start from the parity block and XOR in every
surviving non-parity, non-missing member at the stripe. -/
def reconstructBlock (a : ArraySt) (sn missingDisk pd : Nat) :
    ArraySt × Except String (List Nat) :=
  if a.failed pd then (a, .error "cannot reconstruct: parity disk failed")
  else
    match diskReadBlock a pd sn with
    | (a1, .error e) => (a1, .error ("failed to read parity: " ++ e))
    | (a1, .ok reconstructed) => reconLoop sn missingDisk pd (List.range a.numDisks) reconstructed a1

/-- `raid5Impl.readBlock`: direct read from the data disk when possible,
otherwise reconstruct from parity and the surviving members. -/
def readBlock5 (a : ArraySt) (lbid : Nat) : ArraySt × Except String (List Nat) :=
  let sn := stripeOf a.numDisks lbid
  let pd := sn % a.numDisks
  let dd := skipParity pd (stripeOffsetOf a.numDisks lbid)
  if a.failed dd then reconstructBlock a sn dd pd
  else
    match diskReadBlock a dd sn with
    | (a1, .ok data) => (a1, .ok data)
    | (_, .error _) => reconstructBlock a sn dd pd

/-- The XOR loop of `raid5Impl.rebuildParityBlock`: XOR every member other
than the parity disk into a zero block. -/
def rebuildParityLoop (sn pd : Nat) :
    List Nat → List Nat → ArraySt → ArraySt × Except String (List Nat)
  | [], parity, a => (a, .ok parity)
  | i :: rest, parity, a =>
    if i = pd then rebuildParityLoop sn pd rest parity a
    else
      match diskReadBlock a i sn with
      | (a1, .error e) => (a1, .error ("failed to read disk: " ++ e))
      | (a1, .ok blockData) => rebuildParityLoop sn pd rest (xorBytes parity blockData) a1

/-- `raid5Impl.rebuildParityBlock`: recompute the stripe's parity as the XOR
of all other members and write it to the parity disk. -/
def rebuildParityBlock (a : ArraySt) (sn pd : Nat) : ArraySt × Except String Unit :=
  match rebuildParityLoop sn pd (List.range a.numDisks) (List.replicate a.blockSize 0) a with
  | (a1, .error e) => (a1, .error e)
  | (a1, .ok parity) => diskWriteBlock a1 pd sn parity

/-- The inner offset loop of `raid5Impl.rebuildDisk` for a data stripe: scan
the data positions, and at the one owned by the disk under rebuild,
reconstruct the block and write it back. -/
def rebuildDataLoop (a : ArraySt) (sn pd diskIndex : Nat) : List Nat → ArraySt × Except String Unit
  | [] => (a, .ok ())
  | offset :: rest =>
    if skipParity pd offset = diskIndex then
      match reconstructBlock a sn diskIndex pd with
      | (a1, .error e) => (a1, .error ("rebuild failed reconstructing stripe: " ++ e))
      | (a1, .ok reconstructed) =>
        match diskWriteBlock a1 diskIndex sn reconstructed with
        | (a2, .error e) => (a2, .error ("rebuild failed writing stripe: " ++ e))
        | (a2, .ok _) => (a2, .ok ())
    else rebuildDataLoop a sn pd diskIndex rest

/-- The per-stripe loop of `raid5Impl.rebuildDisk`.  On any error the target
disk's failed flag is restored before the error is returned. -/
def rebuildStripeLoop (diskIndex : Nat) : List Nat → ArraySt → ArraySt × Except String Unit
  | [], a => (a, .ok ())
  | sn :: rest, a =>
    let pd := sn % a.numDisks
    if diskIndex = pd then
      match rebuildParityBlock a sn diskIndex with
      | (a1, .error e) => (setFailed a1 diskIndex true, .error ("rebuild failed at stripe: " ++ e))
      | (a1, .ok _) => rebuildStripeLoop diskIndex rest a1
    else
      match rebuildDataLoop a sn pd diskIndex (List.range (a.numDisks - 1)) with
      | (a1, .error e) => (setFailed a1 diskIndex true, .error e)
      | (a1, .ok _) => rebuildStripeLoop diskIndex rest a1

/-- `raid5Impl.rebuildDisk`: validate the index and the failed flag, clear the
flag, then rebuild every stripe (parity stripes by recomputation, data stripes
by reconstruction). -/
def rebuildDisk5 (a : ArraySt) (diskIndex : Int) : ArraySt × Except String Unit :=
  if diskIndex < 0 ∨ (a.numDisks : Int) ≤ diskIndex then (a, .error "invalid disk index")
  else if a.failed diskIndex.toNat = false then (a, .error "disk is not marked as failed")
  else
    rebuildStripeLoop diskIndex.toNat (List.range a.blocksPerDisk)
      (setFailed a diskIndex.toNat false)

/-! ### RAID 0 engine -/

/-- `raid0Impl.writeBlock`: `diskIndex = lbid % numDisks`,
`physicalBlockID = lbid / numDisks`. -/
def writeBlock0 (a : ArraySt) (lbid : Nat) (data : List Nat) : ArraySt × Except String Unit :=
  diskWriteBlock a (lbid % a.numDisks) (lbid / a.numDisks) data

/-- `raid0Impl.readBlock`. -/
def readBlock0 (a : ArraySt) (lbid : Nat) : ArraySt × Except String (List Nat) :=
  diskReadBlock a (lbid % a.numDisks) (lbid / a.numDisks)

/-! ### RAID 1 engine -/

/-- The fan-out of `raid1Impl.writeBlock`, sequentialised in disk-index order:
attempt the write on every disk, counting successes and collecting the indices
of failed disks together with the last observed error. -/
def mirrorWriteLoop (lbid : Nat) (data : List Nat) :
    List Nat → ArraySt → Nat → List Nat → String → ArraySt × Nat × List Nat × String
  | [], a, successCount, failedDisks, lastErr => (a, successCount, failedDisks, lastErr)
  | i :: rest, a, successCount, failedDisks, lastErr =>
    match diskWriteBlock a i lbid data with
    | (a1, .ok _) => mirrorWriteLoop lbid data rest a1 (successCount + 1) failedDisks lastErr
    | (a1, .error e) => mirrorWriteLoop lbid data rest a1 successCount (failedDisks ++ [i]) e

/-- `raid1Impl.writeBlock`: write to every disk; if none succeeded return the
all-replicas-failed error, if only some succeeded return the degraded-write
error naming the failed disks, otherwise succeed. -/
def writeBlock1 (a : ArraySt) (lbid : Nat) (data : List Nat) : ArraySt × Except String Unit :=
  match mirrorWriteLoop lbid data (List.range a.numDisks) a 0 [] "" with
  | (a1, successCount, failedDisks, lastErr) =>
    if successCount = 0 then (a1, .error ("all disks failed to write: " ++ lastErr))
    else if successCount < a.numDisks then
      (a1, .error ("degraded write, failed disks: " ++ toString failedDisks))
    else (a1, .ok ())

/-- `raid1Impl.readBlock`: iterate the disks in index order, skip those marked
failed, and return the first successful read; if none succeeds, report that no
replica was available. -/
def mirrorReadLoop (lbid : Nat) : List Nat → ArraySt → ArraySt × Except String (List Nat)
  | [], a => (a, .error "failed to read from any disk")
  | i :: rest, a =>
    if a.failed i then mirrorReadLoop lbid rest a
    else
      match diskReadBlock a i lbid with
      | (a1, .ok data) => (a1, .ok data)
      | (_, .error _) => mirrorReadLoop lbid rest a

/-- `raid1Impl.readBlock` over all disks. -/
def readBlock1 (a : ArraySt) (lbid : Nat) : ArraySt × Except String (List Nat) :=
  mirrorReadLoop lbid (List.range a.numDisks) a

/-! ### Array facade (`raid.go`) -/

/-- A `RAIDArray`: the level tag, the derived capacity, and the disk state. -/
structure RAIDArray where
  level : Nat
  capacity : Nat
  st : ArraySt

/-- The capacity computed by `NewRAIDArray` for each level. -/
def levelCapacity (level numDisks blocksPerDisk : Nat) : Nat :=
  match level with
  | 0 => blocksPerDisk * numDisks
  | 1 => blocksPerDisk
  | 5 => blocksPerDisk * (numDisks - 1)
  | _ => 0

/-- `RAIDArray.WriteBlock`: bounds check, buffer-size check, then dispatch to
the level engine. -/
def WriteBlock (r : RAIDArray) (lbid : Int) (data : List Nat) : RAIDArray × Except String Unit :=
  if lbid < 0 ∨ (r.capacity : Int) ≤ lbid then (r, .error "logical block out of bounds")
  else if data.length ≠ r.st.blockSize then (r, .error "data size must match block size")
  else
    match r.level with
    | 0 => let res := writeBlock0 r.st lbid.toNat data; ({ r with st := res.1 }, res.2)
    | 1 => let res := writeBlock1 r.st lbid.toNat data; ({ r with st := res.1 }, res.2)
    | 5 => let res := writeBlock5 r.st lbid.toNat data; ({ r with st := res.1 }, res.2)
    | _ => (r, .error "unsupported RAID level")

/-- `RAIDArray.ReadBlock`: bounds check, then dispatch to the level engine. -/
def ReadBlock (r : RAIDArray) (lbid : Int) : RAIDArray × Except String (List Nat) :=
  if lbid < 0 ∨ (r.capacity : Int) ≤ lbid then (r, .error "logical block out of bounds")
  else
    match r.level with
    | 0 => let res := readBlock0 r.st lbid.toNat; ({ r with st := res.1 }, res.2)
    | 1 => let res := readBlock1 r.st lbid.toNat; ({ r with st := res.1 }, res.2)
    | 5 => let res := readBlock5 r.st lbid.toNat; ({ r with st := res.1 }, res.2)
    | _ => (r, .error "unsupported RAID level")

/-- `RAIDArray.RebuildDisk`: only defined for level 5. -/
def RebuildDisk (r : RAIDArray) (diskIndex : Int) : RAIDArray × Except String Unit :=
  if r.level ≠ 5 then (r, .error "disk rebuild only supported for RAID 5")
  else
    let res := rebuildDisk5 r.st diskIndex
    ({ r with st := res.1 }, res.2)

/-- The state of a freshly created array: no disk failed, every block reads as
zeroes (never-written bytes of the backing file), counters at zero. -/
def initSt (numDisks blockSize blocksPerDisk : Nat) : ArraySt :=
  { numDisks := numDisks, blockSize := blockSize, blocksPerDisk := blocksPerDisk,
    failed := fun _ => false,
    blocks := fun _ _ => List.replicate blockSize 0,
    readCount := fun _ => 0, writeCount := fun _ => 0 }

/-- An array as built by `NewRAIDArray` on fresh backing files. -/
def mkArray (level numDisks blockSize blocksPerDisk : Nat) : RAIDArray :=
  { level := level, capacity := levelCapacity level numDisks blocksPerDisk,
    st := initSt numDisks blockSize blocksPerDisk }

/-- Apply a sequence of `WriteBlock` calls, keeping the state each leaves
behind. -/
def applyWrites (r : RAIDArray) : List (Int × List Nat) → RAIDArray
  | [] => r
  | w :: rest => applyWrites (WriteBlock r w.1 w.2).1 rest

/-! ### Specification-side predicates -/

/-- The byte-wise XOR of the blocks of all member disks at physical index
`s`, folded onto a zero block. -/
def xorStripe (a : ArraySt) (s : Nat) : List Nat :=
  (List.range a.numDisks).foldl (fun acc d => xorBytes acc (a.blocks d s))
    (List.replicate a.blockSize 0)

/-- The level-5 parity invariant: every stripe XORs to the zero block. -/
def ParityInv (a : ArraySt) : Prop :=
  ∀ s, s < a.blocksPerDisk → xorStripe a s = List.replicate a.blockSize 0

/-- Every stored block has exactly `blockSize` bytes. -/
def Wf (a : ArraySt) : Prop := ∀ d p, (a.blocks d p).length = a.blockSize

/-- No member disk is marked failed. -/
def Healthy (a : ArraySt) : Prop := ∀ d, a.failed d = false

/-- Two states that agree on everything except the I/O counters. -/
def SameCore (a1 a : ArraySt) : Prop :=
  a1.numDisks = a.numDisks ∧ a1.blockSize = a.blockSize ∧
  a1.blocksPerDisk = a.blocksPerDisk ∧ a1.failed = a.failed ∧ a1.blocks = a.blocks

/-- The configuration constraints enforced by `NewRAIDArray`, together with
the capacity it computes. -/
def ValidConfig (r : RAIDArray) : Prop :=
  2 ≤ r.st.numDisks ∧ (r.level = 5 → 3 ≤ r.st.numDisks) ∧
  0 < r.st.blockSize ∧ 0 < r.st.blocksPerDisk ∧
  r.capacity = levelCapacity r.level r.st.numDisks r.st.blocksPerDisk

/-! ### XOR algebra -/

lemma xorBytes_length (d s : List Nat) : (xorBytes d s).length = d.length := by
  induction d generalizing s with
  | nil => simp [xorBytes]
  | cons hd tl ih => cases s with
    | nil => simp [xorBytes]
    | cons hs ts => simp [xorBytes, ih]

lemma xorBytes_nil_right (d : List Nat) : xorBytes d [] = d := by
  cases d <;> rfl

lemma xorBytes_rightComm (b x y : List Nat) :
    xorBytes (xorBytes b x) y = xorBytes (xorBytes b y) x := by
  induction b generalizing x y with
  | nil => simp [xorBytes]
  | cons hb tb ih =>
    cases x with
    | nil => cases y <;> simp [xorBytes, xorBytes_nil_right]
    | cons hx tx =>
      cases y with
      | nil => simp [xorBytes, xorBytes_nil_right]
      | cons hy ty =>
        simp only [xorBytes, List.cons.injEq]
        refine ⟨?_, ih tx ty⟩
        rw [Nat.xor_assoc, Nat.xor_assoc, Nat.xor_comm hx hy]

lemma foldl_xorBytes_perm (g : Nat → List Nat) {l1 l2 : List Nat} (h : List.Perm l1 l2)
    (z : List Nat) :
    l1.foldl (fun acc j => xorBytes acc (g j)) z = l2.foldl (fun acc j => xorBytes acc (g j)) z := by
  haveI : RightCommutative (fun (acc : List Nat) (j : Nat) => xorBytes acc (g j)) :=
    ⟨fun b x y => xorBytes_rightComm b (g x) (g y)⟩
  exact h.foldl_eq z

lemma foldl_xorBytes_length (g : Nat → List Nat) (l : List Nat) (z : List Nat) :
    (l.foldl (fun acc j => xorBytes acc (g j)) z).length = z.length := by
  induction l generalizing z with
  | nil => rfl
  | cons hd tl ih => simp only [List.foldl_cons]; rw [ih, xorBytes_length]

lemma xorBytes_getD (d s : List Nat) (h : s.length = d.length) (i : Nat) :
    (xorBytes d s).getD i 0 = (d.getD i 0) ^^^ (s.getD i 0) := by
  induction d generalizing s i with
  | nil =>
    have : s = [] := List.length_eq_zero.mp h
    subst this; simp [xorBytes, List.getD]
  | cons hd tl ih =>
    cases s with
    | nil => simp at h
    | cons hs ts =>
      cases i with
      | zero => simp [xorBytes, List.getD]
      | succ j =>
        simp only [xorBytes, List.getD_cons_succ]
        exact ih ts (by simpa using h) j

lemma foldl_xorBytes_getD (g : Nat → List Nat) (l : List Nat) (z : List Nat)
    (hg : ∀ j ∈ l, (g j).length = z.length) (i : Nat) :
    (l.foldl (fun acc j => xorBytes acc (g j)) z).getD i 0
      = l.foldl (fun x j => x ^^^ (g j).getD i 0) (z.getD i 0) := by
  induction l generalizing z with
  | nil => rfl
  | cons hd tl ih =>
    simp only [List.foldl_cons]
    rw [ih (xorBytes z (g hd))
        (fun j hj => by rw [xorBytes_length]; exact hg j (List.mem_cons_of_mem hd hj)),
      xorBytes_getD z (g hd) (hg hd (List.mem_cons_self hd tl)) i]

lemma foldl_xor_shift (f : Nat → Nat) (l : List Nat) (x : Nat) :
    l.foldl (fun acc j => acc ^^^ f j) x = x ^^^ l.foldl (fun acc j => acc ^^^ f j) 0 := by
  induction l generalizing x with
  | nil => simp
  | cons hd tl ih =>
    simp only [List.foldl_cons]
    rw [ih (x ^^^ f hd), ih (0 ^^^ f hd)]
    simp [Nat.xor_assoc]

lemma getD_replicate_zero (n i : Nat) : (List.replicate n 0).getD i 0 = 0 := by
  simp [List.getD]

lemma xor_double_cancel (a b : Nat) : ((0 ^^^ (a ^^^ b)) ^^^ a) ^^^ b = 0 := by
  rw [Nat.zero_xor, Nat.xor_comm a b, Nat.xor_assoc b a a, Nat.xor_self, Nat.xor_zero,
    Nat.xor_self]

lemma list_eq_of_getD (l1 l2 : List Nat) (hlen : l1.length = l2.length)
    (h : ∀ i, l1.getD i 0 = l2.getD i 0) : l1 = l2 := by
  refine List.ext_getElem hlen (fun n h1 h2 => ?_)
  rw [← List.getD_eq_getElem l1 0 h1, ← List.getD_eq_getElem l2 0 h2]
  exact h n

/-- The write-path cancellation: XORing the freshly computed parity, the new
data and the untouched sibling blocks yields the zero block. -/
lemma parity_fold_cancel (g : Nat → List Nat) (l : List Nat) (data : List Nat) (bs : Nat)
    (hlen : data.length = bs) (hg : ∀ j ∈ l, (g j).length = bs) :
    l.foldl (fun acc j => xorBytes acc (g j))
      (xorBytes (xorBytes (List.replicate bs 0) (l.foldl (fun acc j => xorBytes acc (g j)) data)) data)
      = List.replicate bs 0 := by
  have hP : (l.foldl (fun acc j => xorBytes acc (g j)) data).length = bs := by
    rw [foldl_xorBytes_length]; exact hlen
  have hz : (xorBytes (xorBytes (List.replicate bs 0) (l.foldl (fun acc j => xorBytes acc (g j)) data)) data).length = bs := by
    rw [xorBytes_length, xorBytes_length, List.length_replicate]
  refine list_eq_of_getD _ _ (by rw [foldl_xorBytes_length, hz, List.length_replicate]) (fun i => ?_)
  rw [foldl_xorBytes_getD _ _ _ (fun j hj => by rw [hz]; exact hg j hj) i,
    xorBytes_getD _ _ (by rw [hlen, xorBytes_length, List.length_replicate]) i,
    xorBytes_getD _ _ (by rw [hP, List.length_replicate]) i,
    foldl_xorBytes_getD _ _ _ (fun j hj => by rw [hlen]; exact hg j hj) i,
    getD_replicate_zero]
  rw [foldl_xor_shift (fun j => (g j).getD i 0) l
      ((0 ^^^ List.foldl (fun x j => x ^^^ (g j).getD i 0) (data.getD i 0) l) ^^^ data.getD i 0),
    foldl_xor_shift (fun j => (g j).getD i 0) l (data.getD i 0)]
  exact xor_double_cancel (data.getD i 0) (List.foldl (fun x j => x ^^^ (g j).getD i 0) 0 l)

/-- The reconstruction identity: if a stripe XORs to zero, then parity XOR the
surviving siblings reproduces the missing member. -/
lemma recon_fold_eq (g : Nat → List Nat) (bs pd dd : Nat) (l3 : List Nat)
    (hgpd : (g pd).length = bs) (hgdd : (g dd).length = bs) (hg : ∀ j ∈ l3, (g j).length = bs)
    (hinv : (pd :: dd :: l3).foldl (fun acc j => xorBytes acc (g j)) (List.replicate bs 0)
      = List.replicate bs 0) :
    l3.foldl (fun acc j => xorBytes acc (g j)) (g pd) = g dd := by
  refine list_eq_of_getD _ _ (by rw [foldl_xorBytes_length, hgpd, hgdd]) (fun i => ?_)
  have hb := congrArg (fun l => List.getD l i 0) hinv
  simp only [List.foldl_cons] at hb
  rw [foldl_xorBytes_getD _ _ _ (fun j hj => by
        rw [xorBytes_length, xorBytes_length, List.length_replicate, hg j hj]) i,
    xorBytes_getD _ _ (by rw [xorBytes_length, List.length_replicate, hgdd]) i,
    xorBytes_getD _ _ (by rw [List.length_replicate, hgpd]) i,
    getD_replicate_zero] at hb
  rw [foldl_xor_shift _ _ ((0 ^^^ (g pd).getD i 0) ^^^ (g dd).getD i 0)] at hb
  simp only [Nat.zero_xor] at hb
  have hfe : (g pd).getD i 0 ^^^ (g dd).getD i 0
      = List.foldl (fun x j => x ^^^ (g j).getD i 0) 0 l3 := by
    have h0 := Nat.xor_eq_zero.mp hb
    exact h0
  rw [foldl_xorBytes_getD _ _ _ (fun j hj => by rw [hgpd]; exact hg j hj) i,
    foldl_xor_shift _ _ ((g pd).getD i 0), ← hfe, ← Nat.xor_assoc, Nat.xor_self, Nat.zero_xor]

/-- The parity-rebuild identity: if a stripe XORs to zero, the XOR of all
members other than the parity disk reproduces the parity block. -/
lemma parity_rebuild_fold_eq (g : Nat → List Nat) (bs pd : Nat) (lr : List Nat)
    (hgpd : (g pd).length = bs) (hg : ∀ j ∈ lr, (g j).length = bs)
    (hinv : (pd :: lr).foldl (fun acc j => xorBytes acc (g j)) (List.replicate bs 0)
      = List.replicate bs 0) :
    lr.foldl (fun acc j => xorBytes acc (g j)) (List.replicate bs 0) = g pd := by
  refine list_eq_of_getD _ _
    (by rw [foldl_xorBytes_length, List.length_replicate, hgpd]) (fun i => ?_)
  have hb := congrArg (fun l => List.getD l i 0) hinv
  simp only [List.foldl_cons] at hb
  rw [foldl_xorBytes_getD _ _ _ (fun j hj => by
        rw [xorBytes_length, List.length_replicate, hg j hj]) i,
    xorBytes_getD _ _ (by rw [List.length_replicate, hgpd]) i,
    getD_replicate_zero] at hb
  rw [foldl_xor_shift _ _ (0 ^^^ (g pd).getD i 0)] at hb
  simp only [Nat.zero_xor] at hb
  have h0 := Nat.xor_eq_zero.mp hb
  rw [foldl_xorBytes_getD _ _ _ (fun j hj => by rw [List.length_replicate]; exact hg j hj) i,
    getD_replicate_zero, ← h0]

/-! ### The stripe's index sets -/

lemma skipParity_injective (pd : Nat) : Function.Injective (skipParity pd) := by
  intro i j h
  unfold skipParity at h
  split_ifs at h <;> omega

lemma skipParity_ne (pd i : Nat) : skipParity pd i ≠ pd := by
  unfold skipParity; split_ifs <;> omega

lemma skipParity_lt {N pd i : Nat} (hpd : pd < N) (hi : i < N - 1) : skipParity pd i < N := by
  unfold skipParity; split_ifs <;> omega

/-- `range N` splits into the parity disk, the addressed data disk, and the
images of the other data positions under the skip-over-parity adjustment. -/
lemma perm_split (N pd off : Nat) (hpd : pd < N) (hoff : off < N - 1) :
    List.Perm (List.range N)
      (pd :: skipParity pd off ::
        ((List.range (N - 1)).filter (fun i => i != off)).map (skipParity pd)) := by
  refine (List.perm_ext_iff_of_nodup (List.nodup_range N) ?_).2 ?_
  · refine List.nodup_cons.2 ⟨?_, List.nodup_cons.2 ⟨?_,
      List.Nodup.map (skipParity_injective pd) (List.Nodup.filter _ (List.nodup_range _))⟩⟩
    · intro hmem
      rcases List.mem_cons.mp hmem with h | h
      · exact skipParity_ne pd off h.symm
      · rcases List.mem_map.mp h with ⟨i, _, hi⟩
        exact skipParity_ne pd i hi
    · intro hmem
      rcases List.mem_map.mp hmem with ⟨i, hi, he⟩
      have heq := skipParity_injective pd he
      have hne := (List.mem_filter.mp hi).2
      simp only [bne_iff_ne, ne_eq] at hne
      exact hne heq
  · intro a
    simp only [List.mem_range, List.mem_cons, List.mem_map, List.mem_filter, bne_iff_ne, ne_eq]
    constructor
    · intro ha
      by_cases h1 : a = pd
      · exact Or.inl h1
      by_cases h2 : a = skipParity pd off
      · exact Or.inr (Or.inl h2)
      refine Or.inr (Or.inr ⟨if pd ≤ a then a - 1 else a, ⟨?_, ?_⟩, ?_⟩)
      all_goals simp only [skipParity] at h2 ⊢
      all_goals split_ifs at h2 ⊢ <;> omega
    · rintro (rfl | rfl | ⟨i, ⟨hi, _⟩, rfl⟩)
      · exact hpd
      · exact skipParity_lt hpd hoff
      · exact skipParity_lt hpd hi

/-- `range N` splits into the parity disk, the missing disk, and the
remaining members in index order. -/
lemma perm_split_filter (N pd dd : Nat) (hpd : pd < N) (hdd : dd < N) (hne : dd ≠ pd) :
    List.Perm (List.range N)
      (pd :: dd :: (List.range N).filter (fun i => !(i == pd || i == dd))) := by
  refine (List.perm_ext_iff_of_nodup (List.nodup_range N) ?_).2 ?_
  · refine List.nodup_cons.2 ⟨?_, List.nodup_cons.2 ⟨?_,
      List.Nodup.filter _ (List.nodup_range N)⟩⟩
    · intro hmem
      rcases List.mem_cons.mp hmem with h | h
      · exact hne h.symm
      · have hb := (List.mem_filter.mp h).2
        simp at hb
    · intro hmem
      have hb := (List.mem_filter.mp hmem).2
      simp at hb
  · intro a
    simp only [List.mem_range, List.mem_cons, List.mem_filter, Bool.not_eq_eq_eq_not,
      Bool.not_true, Bool.or_eq_false_iff, beq_eq_false_iff_ne, ne_eq]
    constructor
    · intro ha
      by_cases h1 : a = pd
      · exact Or.inl h1
      by_cases h2 : a = dd
      · exact Or.inr (Or.inl h2)
      exact Or.inr (Or.inr ⟨ha, h1, h2⟩)
    · rintro (rfl | rfl | ⟨ha, _⟩)
      · exact hpd
      · exact hdd
      · exact ha

/-- `range N` splits into the parity disk and the other members. -/
lemma perm_split_one (N pd : Nat) (hpd : pd < N) :
    List.Perm (List.range N) (pd :: (List.range N).filter (fun i => i != pd)) := by
  refine (List.perm_ext_iff_of_nodup (List.nodup_range N) ?_).2 ?_
  · refine List.nodup_cons.2 ⟨?_, List.Nodup.filter _ (List.nodup_range N)⟩
    intro hmem
    have hb := (List.mem_filter.mp hmem).2
    simp at hb
  · intro a
    simp only [List.mem_range, List.mem_cons, List.mem_filter, bne_iff_ne, ne_eq]
    constructor
    · intro ha
      by_cases h1 : a = pd
      · exact Or.inl h1
      · exact Or.inr ⟨ha, h1⟩
    · rintro (rfl | ⟨ha, _⟩)
      · exact hpd
      · exact ha

/-- The skip-over-parity adjustment maps the `N - 1` data positions exactly
onto the non-parity members of the stripe. -/
lemma perm_data_members (N pd : Nat) (hpd : pd < N) :
    List.Perm ((List.range (N - 1)).map (skipParity pd))
      ((List.range N).filter (fun i => i != pd)) := by
  refine (List.perm_ext_iff_of_nodup
    (List.Nodup.map (skipParity_injective pd) (List.nodup_range _))
    (List.Nodup.filter _ (List.nodup_range N))).2 ?_
  intro a
  simp only [List.mem_map, List.mem_range, List.mem_filter, bne_iff_ne, ne_eq]
  constructor
  · rintro ⟨i, hi, rfl⟩
    exact ⟨skipParity_lt hpd hi, skipParity_ne pd i⟩
  · rintro ⟨ha, hne⟩
    refine ⟨if pd ≤ a then a - 1 else a, ?_, ?_⟩
    · split_ifs <;> omega
    · simp only [skipParity]; split_ifs <;> omega

/-! ### Characterisation of the disk operations -/

lemma sameCore_refl (a : ArraySt) : SameCore a a := ⟨rfl, rfl, rfl, rfl, rfl⟩

lemma sameCore_trans {a b c : ArraySt} (h1 : SameCore a b) (h2 : SameCore b c) : SameCore a c := by
  obtain ⟨x1, x2, x3, x4, x5⟩ := h1
  obtain ⟨y1, y2, y3, y4, y5⟩ := h2
  exact ⟨x1.trans y1, x2.trans y2, x3.trans y3, x4.trans y4, x5.trans y5⟩

lemma diskReadBlock_ok {a : ArraySt} {d p : Nat}
    (hf : a.failed d = false) (hp : p < a.blocksPerDisk) :
    ∃ a1, diskReadBlock a d p = (a1, .ok (a.blocks d p)) ∧ SameCore a1 a := by
  refine ⟨{ a with readCount := fun d2 => if d2 = d then a.readCount d + 1 else a.readCount d2 },
    ?_, rfl, rfl, rfl, rfl, rfl⟩
  simp [diskReadBlock, hf, hp]

lemma diskWriteBlock_ok {a : ArraySt} {d p : Nat} {data : List Nat}
    (hf : a.failed d = false) (hp : p < a.blocksPerDisk) (hlen : data.length = a.blockSize) :
    ∃ a1, diskWriteBlock a d p data = (a1, .ok ()) ∧
      a1.numDisks = a.numDisks ∧ a1.blockSize = a.blockSize ∧
      a1.blocksPerDisk = a.blocksPerDisk ∧ a1.failed = a.failed ∧
      (∀ d2 p2, a1.blocks d2 p2 = if d2 = d ∧ p2 = p then data else a.blocks d2 p2) := by
  refine ⟨{ a with
      blocks := fun d2 p2 => if d2 = d ∧ p2 = p then data else a.blocks d2 p2,
      writeCount := fun d2 => if d2 = d then a.writeCount d + 1 else a.writeCount d2 },
    ?_, rfl, rfl, rfl, rfl, fun d2 p2 => rfl⟩
  have h2 : ¬ a.blocksPerDisk ≤ p := Nat.not_le.mpr hp
  simp [diskWriteBlock, hf, h2, hlen]

lemma copyInto_replicate {data : List Nat} {n : Nat} (hlen : data.length = n) :
    copyInto (List.replicate n 0) data = data := by
  subst hlen
  simp [copyInto]

lemma foldl_congr_fun {β : Type} {f g : List Nat → β → List Nat} {l : List β} {z : List Nat}
    (h : ∀ acc, ∀ i ∈ l, f acc i = g acc i) : l.foldl f z = l.foldl g z := by
  induction l generalizing z with
  | nil => rfl
  | cons hd tl ih =>
    simp only [List.foldl_cons]
    rw [h z hd (List.mem_cons_self hd tl)]
    exact ih (fun acc i hi => h acc i (List.mem_cons_of_mem hd hi))

/-- The parity loop on a state whose relevant disks are live: it succeeds and
returns the XOR of the addressed sibling blocks folded onto the accumulator,
touching only the read counters. -/
lemma parityLoop_ok (sn off pd : Nat) (l : List Nat) (parity : List Nat) (a : ArraySt)
    (hh : ∀ i ∈ l, a.failed (skipParity pd i) = false)
    (hsn : sn < a.blocksPerDisk) :
    ∃ a1, parityLoop sn off pd l parity a
        = (a1, .ok ((l.filter (fun i => i != off)).foldl
            (fun acc i => xorBytes acc (a.blocks (skipParity pd i) sn)) parity)) ∧
      SameCore a1 a := by
  induction l generalizing parity a with
  | nil => exact ⟨a, rfl, sameCore_refl a⟩
  | cons i rest ih =>
    by_cases hioff : i = off
    · have hfe : (i != off) = false := by simp [hioff]
      obtain ⟨a1, heq, hsc⟩ := ih parity a (fun j hj => hh j (List.mem_cons_of_mem i hj)) hsn
      refine ⟨a1, ?_, hsc⟩
      simp only [parityLoop, if_pos hioff, List.filter_cons, hfe, Bool.false_eq_true, if_false]
      exact heq
    · have hte : (i != off) = true := by simp [hioff]
      have hfi := hh i (List.mem_cons_self i rest)
      obtain ⟨ar, hrd, hscr⟩ := diskReadBlock_ok hfi hsn
      have hc3 := hscr.2.2.1
      have hc4 := hscr.2.2.2.1
      have hc5 := hscr.2.2.2.2
      obtain ⟨a1, heq, hsc⟩ := ih (xorBytes parity (a.blocks (skipParity pd i) sn)) ar
        (fun j hj => by rw [hc4]; exact hh j (List.mem_cons_of_mem i hj)) (by rw [hc3]; exact hsn)
      refine ⟨a1, ?_, sameCore_trans hsc hscr⟩
      simp only [parityLoop, if_neg hioff, hfi, Bool.false_eq_true, if_false, hrd,
        List.filter_cons, hte, if_true]
      rw [heq, hc5, List.foldl_cons]

/-- The new parity block computed by `raid5Impl.writeBlock` for `lbid`:
the new data XORed with the current blocks of the other data members. -/
def newParity (a : ArraySt) (lbid : Nat) (data : List Nat) : List Nat :=
  ((List.range (a.numDisks - 1)).filter (fun i => i != stripeOffsetOf a.numDisks lbid)).foldl
    (fun acc i =>
      xorBytes acc (a.blocks (skipParity (parityDiskOf a.numDisks lbid) i) (stripeOf a.numDisks lbid)))
    (copyInto (List.replicate a.blockSize 0) data)

lemma dataDiskOf_ne_parityDiskOf (N lbid : Nat) :
    dataDiskOf N lbid ≠ parityDiskOf N lbid :=
  skipParity_ne (parityDiskOf N lbid) (stripeOffsetOf N lbid)

lemma parityDiskOf_lt {N : Nat} (hN : 0 < N) (lbid : Nat) : parityDiskOf N lbid < N :=
  Nat.mod_lt _ hN

lemma stripeOffsetOf_lt {N : Nat} (hN : 2 ≤ N) (lbid : Nat) :
    stripeOffsetOf N lbid < N - 1 :=
  Nat.mod_lt _ (by omega)

lemma dataDiskOf_lt {N : Nat} (hN : 2 ≤ N) (lbid : Nat) : dataDiskOf N lbid < N :=
  skipParity_lt (parityDiskOf_lt (by omega) lbid) (stripeOffsetOf_lt hN lbid)

lemma stripeOf_lt {N bpd lbid : Nat} (hN : 2 ≤ N) (hlb : lbid < bpd * (N - 1)) :
    stripeOf N lbid < bpd := by
  have h1 : 0 < N - 1 := by omega
  exact (Nat.div_lt_iff_lt_mul h1).2 hlb

/-- A successful level-5 write on a healthy array: it stores `data` on the
data disk and the recomputed parity on the parity disk, both at physical
index `stripe`, and changes nothing else. -/
lemma writeBlock5_ok {a : ArraySt} {lbid : Nat} {data : List Nat}
    (hN : 2 ≤ a.numDisks) (hh : Healthy a) (hlen : data.length = a.blockSize)
    (hlb : lbid < a.blocksPerDisk * (a.numDisks - 1)) :
    ∃ a1, writeBlock5 a lbid data = (a1, .ok ()) ∧
      a1.numDisks = a.numDisks ∧ a1.blockSize = a.blockSize ∧
      a1.blocksPerDisk = a.blocksPerDisk ∧ a1.failed = a.failed ∧
      (∀ d p, a1.blocks d p =
        if d = dataDiskOf a.numDisks lbid ∧ p = stripeOf a.numDisks lbid then data
        else if d = parityDiskOf a.numDisks lbid ∧ p = stripeOf a.numDisks lbid then
          newParity a lbid data
        else a.blocks d p) := by
  have hsn : stripeOf a.numDisks lbid < a.blocksPerDisk := stripeOf_lt hN hlb
  obtain ⟨aL, hL, hscL⟩ := parityLoop_ok (stripeOf a.numDisks lbid)
    (stripeOffsetOf a.numDisks lbid) (parityDiskOf a.numDisks lbid)
    (List.range (a.numDisks - 1)) (copyInto (List.replicate a.blockSize 0) data) a
    (fun i _ => hh _) hsn
  obtain ⟨hL1, hL2, hL3, hL4, hL5⟩ := hscL
  have hplen : (newParity a lbid data).length = a.blockSize := by
    rw [newParity, foldl_xorBytes_length, copyInto_replicate hlen, hlen]
  obtain ⟨aP, hP, hP1, hP2, hP3, hP4, hP5⟩ :=
    @diskWriteBlock_ok aL (parityDiskOf a.numDisks lbid) (stripeOf a.numDisks lbid)
      (newParity a lbid data)
      (by rw [hL4]; exact hh _) (by rw [hL3]; exact hsn) (by rw [hL2]; exact hplen)
  obtain ⟨aD, hD, hD1, hD2, hD3, hD4, hD5⟩ :=
    @diskWriteBlock_ok aP (dataDiskOf a.numDisks lbid) (stripeOf a.numDisks lbid) data
      (by rw [hP4, hL4]; exact hh _) (by rw [hP3, hL3]; exact hsn)
      (by rw [hP2, hL2]; exact hlen)
  refine ⟨aD, ?_, by rw [hD1, hP1, hL1], by rw [hD2, hP2, hL2], by rw [hD3, hP3, hL3],
    by rw [hD4, hP4, hL4], ?_⟩
  · show writeBlock5 a lbid data = (aD, .ok ())
    have hpf : aL.failed (stripeOf a.numDisks lbid % a.numDisks) = false := by
      rw [hL4]; exact hh _
    simp only [writeBlock5, parityDiskOf, dataDiskOf] at hL hP hD ⊢
    simp only [newParity, parityDiskOf] at hP
    rw [hL]
    simp only [hpf, Bool.false_eq_true, if_false, hP, hD]
  · intro d p
    rw [hD5, hP5, hL5]

/-- A level-5 read whose data disk is live returns that disk's block at the
stripe directly. -/
lemma readBlock5_ok {a : ArraySt} {lbid : Nat}
    (hf : a.failed (dataDiskOf a.numDisks lbid) = false) (hN : 2 ≤ a.numDisks)
    (hlb : lbid < a.blocksPerDisk * (a.numDisks - 1)) :
    (readBlock5 a lbid).2 = .ok (a.blocks (dataDiskOf a.numDisks lbid) (stripeOf a.numDisks lbid)) := by
  have hsn : stripeOf a.numDisks lbid < a.blocksPerDisk := stripeOf_lt hN hlb
  obtain ⟨ar, hrd, _⟩ := diskReadBlock_ok hf hsn
  simp only [readBlock5, parityDiskOf, dataDiskOf] at hf hrd ⊢
  simp only [hf, Bool.false_eq_true, if_false]
  rw [hrd]

/-! ### The parity invariant under writes -/

lemma xorBytes_zero_zero (n : Nat) :
    xorBytes (List.replicate n 0) (List.replicate n 0) = List.replicate n 0 := by
  induction n with
  | zero => rfl
  | succ k ih => simpa [List.replicate_succ, xorBytes] using ih

lemma parityInv_init (numDisks blockSize blocksPerDisk : Nat) :
    ParityInv (initSt numDisks blockSize blocksPerDisk) := by
  intro s _
  unfold xorStripe initSt
  generalize List.range numDisks = l
  induction l with
  | nil => rfl
  | cons hd tl ih => simpa [xorBytes_zero_zero] using ih

lemma wf_init (numDisks blockSize blocksPerDisk : Nat) :
    Wf (initSt numDisks blockSize blocksPerDisk) := by
  intro d p
  simp [initSt]

/-- A successful healthy write preserves geometry, health, well-formedness and
the parity invariant. -/
lemma writeBlock5_inv {a : ArraySt} {lbid : Nat} {data : List Nat}
    (hN : 3 ≤ a.numDisks) (hh : Healthy a) (hWf : Wf a) (hinv : ParityInv a)
    (hlen : data.length = a.blockSize) (hlb : lbid < a.blocksPerDisk * (a.numDisks - 1)) :
    (writeBlock5 a lbid data).1.numDisks = a.numDisks ∧
    (writeBlock5 a lbid data).1.blockSize = a.blockSize ∧
    (writeBlock5 a lbid data).1.blocksPerDisk = a.blocksPerDisk ∧
    Healthy (writeBlock5 a lbid data).1 ∧ Wf (writeBlock5 a lbid data).1 ∧
    ParityInv (writeBlock5 a lbid data).1 := by
  obtain ⟨a1, heq, h1, h2, h3, h4, h5⟩ := writeBlock5_ok (by omega) hh hlen hlb
  have hplen : (newParity a lbid data).length = a.blockSize := by
    rw [newParity, foldl_xorBytes_length, copyInto_replicate hlen, hlen]
  rw [heq]
  have hWf1 : Wf a1 := by
    intro d p
    rw [h5, h2]
    split_ifs with hc1 hc2
    · exact hlen
    · exact hplen
    · exact hWf d p
  refine ⟨h1, h2, h3, fun d => by rw [h4]; exact hh d, hWf1, ?_⟩
  intro s hs
  rw [h3] at hs
  have hpd : parityDiskOf a.numDisks lbid < a.numDisks := parityDiskOf_lt (by omega) lbid
  have hoff : stripeOffsetOf a.numDisks lbid < a.numDisks - 1 :=
    stripeOffsetOf_lt (by omega) lbid
  have hnepd : parityDiskOf a.numDisks lbid ≠ dataDiskOf a.numDisks lbid :=
    (dataDiskOf_ne_parityDiskOf a.numDisks lbid).symm
  by_cases hssn : s = stripeOf a.numDisks lbid
  · subst hssn
    unfold xorStripe
    rw [h1, h2]
    rw [foldl_xorBytes_perm (fun d => a1.blocks d (stripeOf a.numDisks lbid))
      (perm_split a.numDisks (parityDiskOf a.numDisks lbid) (stripeOffsetOf a.numDisks lbid)
        hpd hoff) (List.replicate a.blockSize 0)]
    simp only [List.foldl_cons]
    have hgpd : a1.blocks (parityDiskOf a.numDisks lbid) (stripeOf a.numDisks lbid)
        = newParity a lbid data := by
      rw [h5]
      simp [hnepd]
    have hgdd : a1.blocks (skipParity (parityDiskOf a.numDisks lbid)
        (stripeOffsetOf a.numDisks lbid)) (stripeOf a.numDisks lbid) = data := by
      rw [h5]
      simp [dataDiskOf]
    rw [hgpd, hgdd]
    have hother : ∀ acc : List Nat, ∀ j ∈ ((List.range (a.numDisks - 1)).filter
        (fun i => i != stripeOffsetOf a.numDisks lbid)).map
          (skipParity (parityDiskOf a.numDisks lbid)),
        xorBytes acc (a1.blocks j (stripeOf a.numDisks lbid))
          = xorBytes acc (a.blocks j (stripeOf a.numDisks lbid)) := by
      intro acc j hj
      rcases List.mem_map.mp hj with ⟨i, hi, rfl⟩
      have hne1 : skipParity (parityDiskOf a.numDisks lbid) i ≠ dataDiskOf a.numDisks lbid := by
        intro hc
        have := skipParity_injective _ hc
        have hif := (List.mem_filter.mp hi).2
        simp only [bne_iff_ne, ne_eq] at hif
        exact hif this
      have hne2 : skipParity (parityDiskOf a.numDisks lbid) i ≠ parityDiskOf a.numDisks lbid :=
        skipParity_ne _ _
      rw [h5]
      simp [hne1, hne2]
    rw [foldl_congr_fun hother]
    have hnp : newParity a lbid data
        = (((List.range (a.numDisks - 1)).filter
            (fun i => i != stripeOffsetOf a.numDisks lbid)).map
              (skipParity (parityDiskOf a.numDisks lbid))).foldl
          (fun acc j => xorBytes acc (a.blocks j (stripeOf a.numDisks lbid))) data := by
      rw [newParity, copyInto_replicate hlen, List.foldl_map]
    rw [hnp]
    exact parity_fold_cancel (fun j => a.blocks j (stripeOf a.numDisks lbid)) _ data
      a.blockSize hlen (fun j _ => hWf j _)
  · have hcongr : xorStripe a1 s = xorStripe a s := by
      unfold xorStripe
      rw [h1, h2]
      refine foldl_congr_fun (fun acc d _ => ?_)
      rw [h5]
      simp [hssn]
    rw [hcongr, h2]
    exact hinv s hs

/-- The facade-level well-behavedness of a healthy level-5 array. -/
def Good5 (r : RAIDArray) : Prop :=
  r.level = 5 ∧ 3 ≤ r.st.numDisks ∧
  r.capacity = r.st.blocksPerDisk * (r.st.numDisks - 1) ∧
  Healthy r.st ∧ Wf r.st ∧ ParityInv r.st

lemma Good5_write (r : RAIDArray) (lbid : Int) (data : List Nat) (h : Good5 r) :
    Good5 (WriteBlock r lbid data).1 := by
  obtain ⟨hl, hN, hcap, hh, hw, hinv⟩ := h
  by_cases hb : lbid < 0 ∨ (r.capacity : Int) ≤ lbid
  · simp only [WriteBlock, if_pos hb]
    exact ⟨hl, hN, hcap, hh, hw, hinv⟩
  · by_cases hs : data.length ≠ r.st.blockSize
    · simp only [WriteBlock, if_neg hb, if_pos hs]
      exact ⟨hl, hN, hcap, hh, hw, hinv⟩
    · push_neg at hb hs
      have hlb : lbid.toNat < r.st.blocksPerDisk * (r.st.numDisks - 1) := by
        rw [← hcap]; omega
      obtain ⟨m1, m2, m3, mh, mw, minv⟩ := writeBlock5_inv hN hh hw hinv hs hlb
      simp only [WriteBlock, if_neg (by omega : ¬(lbid < 0 ∨ (r.capacity : Int) ≤ lbid)),
        if_neg (by omega : ¬data.length ≠ r.st.blockSize), hl]
      exact ⟨rfl, by rw [m1]; exact hN, by rw [m3, m1]; exact hcap, mh, mw, minv⟩

lemma Good5_applyWrites (r : RAIDArray) (ws : List (Int × List Nat)) (h : Good5 r) :
    Good5 (applyWrites r ws) := by
  induction ws generalizing r with
  | nil => exact h
  | cons w rest ih => exact ih _ (Good5_write r w.1 w.2 h)

lemma Good5_mkArray (numDisks blockSize blocksPerDisk : Nat) (hN : 3 ≤ numDisks) :
    Good5 (mkArray 5 numDisks blockSize blocksPerDisk) :=
  ⟨rfl, hN, rfl, fun _ => rfl, wf_init _ _ _, parityInv_init _ _ _⟩

/-- C1.  For a level-5 array whose disks are all healthy and initially
zero-filled, after any sequence of `WriteBlock` operations (in particular any
sequence of successful ones), for every stripe `s` the byte-wise XOR of the
blocks at physical index `s` on all member disks is the zero block. -/
theorem raid5_parity_invariant (numDisks blockSize blocksPerDisk : Nat)
    (hN : 3 ≤ numDisks) (ws : List (Int × List Nat)) :
    ParityInv (applyWrites (mkArray 5 numDisks blockSize blocksPerDisk) ws).st :=
  (Good5_applyWrites _ ws (Good5_mkArray numDisks blockSize blocksPerDisk hN)).2.2.2.2.2

/-- Witness for C1 at a concrete array and write sequence. -/
theorem raid5_parity_invariant_witness :
    3 ≤ 4 ∧ ParityInv (applyWrites (mkArray 5 4 2 3)
      [(0, [1, 2]), (1, [3, 4]), (5, [9, 9])]).st :=
  ⟨by decide, raid5_parity_invariant 4 2 3 (by decide) [(0, [1, 2]), (1, [3, 4]), (5, [9, 9])]⟩

/-! ### Addressing and guard claims -/

/-- C5.  Both level-5 paths address physical block `stripe = lbid / (N-1)`,
place parity on disk `stripe % N` and the data on disk `stripe_offset` when
`stripe_offset < parity_disk`, else `stripe_offset + 1`; the skip-over-parity
map covers the `N - 1` non-parity members exactly, and distinct logical
blocks occupy distinct physical positions. -/
theorem raid5_addressing (N bpd : Nat) (hN : 3 ≤ N) :
    ∀ lbid, lbid < bpd * (N - 1) →
      stripeOf N lbid = lbid / (N - 1) ∧
      stripeOffsetOf N lbid = lbid % (N - 1) ∧
      parityDiskOf N lbid = stripeOf N lbid % N ∧
      dataDiskOf N lbid = (if stripeOffsetOf N lbid < parityDiskOf N lbid
        then stripeOffsetOf N lbid else stripeOffsetOf N lbid + 1) ∧
      stripeOf N lbid < bpd ∧
      parityDiskOf N lbid < N ∧ dataDiskOf N lbid < N ∧
      dataDiskOf N lbid ≠ parityDiskOf N lbid ∧
      List.Perm ((List.range (N - 1)).map (skipParity (parityDiskOf N lbid)))
        ((List.range N).filter (fun d => d != parityDiskOf N lbid)) ∧
      (∀ lbid2, lbid2 < bpd * (N - 1) → lbid2 ≠ lbid →
        ¬(dataDiskOf N lbid2 = dataDiskOf N lbid ∧ stripeOf N lbid2 = stripeOf N lbid)) := by
  intro lbid hlb
  refine ⟨rfl, rfl, rfl, ?_, stripeOf_lt (by omega) hlb, parityDiskOf_lt (by omega) lbid,
    dataDiskOf_lt (by omega) lbid, dataDiskOf_ne_parityDiskOf N lbid,
    perm_data_members N _ (parityDiskOf_lt (by omega) lbid), ?_⟩
  · simp only [dataDiskOf, skipParity]
    split_ifs <;> omega
  · rintro lbid2 _ hne ⟨hdd, hs⟩
    have hpdeq : parityDiskOf N lbid2 = parityDiskOf N lbid := by
      unfold parityDiskOf
      rw [hs]
    rw [dataDiskOf, dataDiskOf, hpdeq] at hdd
    have hoffeq := skipParity_injective _ hdd
    have e1 := Nat.div_add_mod lbid (N - 1)
    have e2 := Nat.div_add_mod lbid2 (N - 1)
    unfold stripeOf at hs
    unfold stripeOffsetOf at hoffeq
    rw [hs, hoffeq] at e2
    exact hne (e2.symm.trans e1)

/-- Witness for C5 at a concrete geometry. -/
theorem raid5_addressing_witness :
    3 ≤ 4 ∧ (∀ lbid, lbid < 20 * (4 - 1) →
      stripeOf 4 lbid = lbid / (4 - 1) ∧
      stripeOffsetOf 4 lbid = lbid % (4 - 1) ∧
      parityDiskOf 4 lbid = stripeOf 4 lbid % 4 ∧
      dataDiskOf 4 lbid = (if stripeOffsetOf 4 lbid < parityDiskOf 4 lbid
        then stripeOffsetOf 4 lbid else stripeOffsetOf 4 lbid + 1) ∧
      stripeOf 4 lbid < 20 ∧
      parityDiskOf 4 lbid < 4 ∧ dataDiskOf 4 lbid < 4 ∧
      dataDiskOf 4 lbid ≠ parityDiskOf 4 lbid ∧
      List.Perm ((List.range (4 - 1)).map (skipParity (parityDiskOf 4 lbid)))
        ((List.range 4).filter (fun d => d != parityDiskOf 4 lbid)) ∧
      (∀ lbid2, lbid2 < 20 * (4 - 1) → lbid2 ≠ lbid →
        ¬(dataDiskOf 4 lbid2 = dataDiskOf 4 lbid ∧ stripeOf 4 lbid2 = stripeOf 4 lbid))) :=
  ⟨by decide, raid5_addressing 4 20 (by decide)⟩

/-- C9.  The facade rejects out-of-range logical block IDs on both paths and
wrong-sized write buffers, before any engine or disk is touched (the state is
returned unchanged). -/
theorem facade_bounds_checks (r : RAIDArray) (lbid : Int) (data : List Nat) :
    ((lbid < 0 ∨ (r.capacity : Int) ≤ lbid) →
      WriteBlock r lbid data = (r, .error "logical block out of bounds") ∧
      ReadBlock r lbid = (r, .error "logical block out of bounds")) ∧
    (0 ≤ lbid → lbid < (r.capacity : Int) → data.length ≠ r.st.blockSize →
      WriteBlock r lbid data = (r, .error "data size must match block size")) := by
  constructor
  · intro h
    constructor
    · unfold WriteBlock
      rw [if_pos h]
    · unfold ReadBlock
      rw [if_pos h]
  · intro h1 h2 h3
    unfold WriteBlock
    rw [if_neg (by omega : ¬(lbid < 0 ∨ (r.capacity : Int) ≤ lbid)), if_pos h3]

/-- Witness for C9 at a concrete array: `lbid = -1`, `lbid = capacity` and a
wrong-sized buffer are all rejected. -/
theorem facade_bounds_checks_witness :
    (WriteBlock (mkArray 0 2 2 3) (-1) [0, 0]
        = (mkArray 0 2 2 3, .error "logical block out of bounds") ∧
      ReadBlock (mkArray 0 2 2 3) (-1)
        = (mkArray 0 2 2 3, .error "logical block out of bounds")) ∧
    (WriteBlock (mkArray 0 2 2 3) 6 [0, 0]
        = (mkArray 0 2 2 3, .error "logical block out of bounds") ∧
      ReadBlock (mkArray 0 2 2 3) 6
        = (mkArray 0 2 2 3, .error "logical block out of bounds")) ∧
    WriteBlock (mkArray 0 2 2 3) 0 [0]
        = (mkArray 0 2 2 3, .error "data size must match block size") :=
  ⟨(facade_bounds_checks (mkArray 0 2 2 3) (-1) [0, 0]).1 (by decide),
    (facade_bounds_checks (mkArray 0 2 2 3) 6 [0, 0]).1 (by decide),
    (facade_bounds_checks (mkArray 0 2 2 3) 0 [0]).2 (by decide) (by decide) (by decide)⟩

/-- C10.  `rebuildDisk` validates the disk index and the failed flag before
touching anything: on an out-of-range index or a live disk it returns an
error with the state (contents, counters, flags) completely unchanged. -/
theorem rebuild_guard_checks (a : ArraySt) (d : Int) :
    ((d < 0 ∨ (a.numDisks : Int) ≤ d) →
      rebuildDisk5 a d = (a, .error "invalid disk index")) ∧
    (0 ≤ d → d < (a.numDisks : Int) → a.failed d.toNat = false →
      rebuildDisk5 a d = (a, .error "disk is not marked as failed")) := by
  constructor
  · intro h
    unfold rebuildDisk5
    rw [if_pos h]
  · intro h1 h2 h3
    unfold rebuildDisk5
    rw [if_neg (by omega : ¬(d < 0 ∨ (a.numDisks : Int) ≤ d)), if_pos h3]

/-- Witness for C10 at a concrete level-5 state. -/
theorem rebuild_guard_checks_witness :
    rebuildDisk5 (mkArray 5 3 1 1).st 7 = ((mkArray 5 3 1 1).st, .error "invalid disk index") ∧
    rebuildDisk5 (mkArray 5 3 1 1).st 0
      = ((mkArray 5 3 1 1).st, .error "disk is not marked as failed") :=
  ⟨(rebuild_guard_checks (mkArray 5 3 1 1).st 7).1 (by decide),
    (rebuild_guard_checks (mkArray 5 3 1 1).st 0).2 (by decide) (by decide) (by decide)⟩

/-! ### The level-1 mirror -/

lemma mirrorReadLoop_spec (lbid : Nat) (a : ArraySt) (hlb : lbid < a.blocksPerDisk)
    (l : List Nat) :
    (∀ i, l.find? (fun j => !a.failed j) = some i →
      (mirrorReadLoop lbid l a).2 = .ok (a.blocks i lbid)) ∧
    (l.find? (fun j => !a.failed j) = none →
      mirrorReadLoop lbid l a = (a, .error "failed to read from any disk")) := by
  induction l with
  | nil => exact ⟨fun i h => by simp [List.find?] at h, fun _ => rfl⟩
  | cons hd tl ih =>
    by_cases hf : a.failed hd = true
    · have hfind : (hd :: tl).find? (fun j => !a.failed j) = tl.find? (fun j => !a.failed j) := by
        rw [List.find?_cons]
        simp [hf]
      constructor
      · intro i h
        rw [hfind] at h
        have := ih.1 i h
        simpa [mirrorReadLoop, hf] using this
      · intro h
        rw [hfind] at h
        have := ih.2 h
        simpa [mirrorReadLoop, hf] using this
    · have hfb : a.failed hd = false := by simpa using hf
      have hfind : (hd :: tl).find? (fun j => !a.failed j) = some hd := by
        rw [List.find?_cons]
        simp [hfb]
      obtain ⟨ar, hrd, _⟩ := diskReadBlock_ok hfb hlb
      constructor
      · intro i h
        rw [hfind] at h
        injection h with h
        subst h
        simp [mirrorReadLoop, hfb, hrd]
      · intro h
        rw [hfind] at h
        exact absurd h (by simp)

/-- C8.  A level-1 read scans the disks in index order, skips those marked
failed, and returns the block of the first disk whose read succeeds; if none
does, it reports that no replica was available. -/
theorem raid1_read_first_live (a : ArraySt) (lbid : Nat) (hlb : lbid < a.blocksPerDisk) :
    (∀ i, (List.range a.numDisks).find? (fun j => !a.failed j) = some i →
      (readBlock1 a lbid).2 = .ok (a.blocks i lbid)) ∧
    ((List.range a.numDisks).find? (fun j => !a.failed j) = none →
      readBlock1 a lbid = (a, .error "failed to read from any disk")) :=
  mirrorReadLoop_spec lbid a hlb (List.range a.numDisks)

/-- A three-disk mirror state with disk 0 failed, for the C8 witness. -/
def mirrorSt : ArraySt :=
  setFailed { initSt 3 1 2 with blocks := fun d _ => [d + 10] } 0 true

/-- Witness for C8: with disk 0 failed, the read returns disk 1's block. -/
theorem raid1_read_first_live_witness :
    (readBlock1 mirrorSt 0).2 = .ok (mirrorSt.blocks 1 0) :=
  (raid1_read_first_live mirrorSt 0 (by decide)).1 1 (by decide)

lemma filter_length_partition (p : Nat → Bool) (l : List Nat) :
    (l.filter p).length + (l.filter (fun x => !p x)).length = l.length := by
  induction l with
  | nil => rfl
  | cons hd tl ih =>
    by_cases h : p hd = true
    · simp only [List.filter_cons, h, if_true, Bool.not_true, Bool.false_eq_true, if_false,
        List.length_cons]
      omega
    · have hfb : p hd = false := by simpa using h
      simp only [List.filter_cons, hfb, Bool.false_eq_true, if_false, Bool.not_false, if_true,
        List.length_cons]
      omega

lemma mirrorWriteLoop_spec (lbid : Nat) (data : List Nat) :
    ∀ (l : List Nat) (a : ArraySt) (sc : Nat) (fd : List Nat) (le : String),
      lbid < a.blocksPerDisk → data.length = a.blockSize →
      ∃ a1, mirrorWriteLoop lbid data l a sc fd le
          = (a1, sc + (l.filter (fun i => !a.failed i)).length,
             fd ++ l.filter (fun i => a.failed i),
             if l.filter (fun i => a.failed i) = [] then le else "disk is failed") ∧
        a1.numDisks = a.numDisks ∧ a1.blockSize = a.blockSize ∧
        a1.blocksPerDisk = a.blocksPerDisk ∧ a1.failed = a.failed ∧
        (∀ d p, a1.blocks d p
          = if d ∈ l ∧ a.failed d = false ∧ p = lbid then data else a.blocks d p) := by
  intro l
  induction l with
  | nil =>
    intro a sc fd le hlb hlen
    exact ⟨a, by simp [mirrorWriteLoop], rfl, rfl, rfl, rfl, fun d p => by simp⟩
  | cons i rest ih =>
    intro a sc fd le hlb hlen
    by_cases hf : a.failed i = true
    · have hw : diskWriteBlock a i lbid data = (a, .error "disk is failed") := by
        unfold diskWriteBlock
        rw [if_pos hf]
      obtain ⟨a1, heq, m1, m2, m3, m4, m5⟩ := ih a sc (fd ++ [i]) "disk is failed" hlb hlen
      refine ⟨a1, ?_, m1, m2, m3, m4, ?_⟩
      · simp only [mirrorWriteLoop, hw]
        rw [heq]
        simp only [List.filter_cons, hf, Bool.not_true, Bool.false_eq_true, if_false, if_true,
          List.append_assoc, List.singleton_append, Prod.mk.injEq]
        simp
      · intro d p
        rw [m5]
        by_cases hdi : d = i
        · subst hdi
          simp [hf]
        · simp [hdi, List.mem_cons]
    · have hfb : a.failed i = false := by simpa using hf
      obtain ⟨aw, hw, w1, w2, w3, w4, w5⟩ := diskWriteBlock_ok hfb hlb hlen
      obtain ⟨a1, heq, m1, m2, m3, m4, m5⟩ := ih aw (sc + 1) fd le
        (by rw [w3]; exact hlb) (by rw [w2]; exact hlen)
      refine ⟨a1, ?_, m1.trans w1, m2.trans w2, m3.trans w3, m4.trans w4, ?_⟩
      · simp only [mirrorWriteLoop, hw]
        rw [heq, w4]
        have harith : sc + 1 + (List.filter (fun j => !a.failed j) rest).length
            = sc + ((List.filter (fun j => !a.failed j) rest).length + 1) := by omega
        simp only [List.filter_cons, hfb, Bool.not_false, if_true, Bool.false_eq_true, if_false,
          List.length_cons, harith]
      · intro d p
        rw [w4] at m5
        rw [m5, w5]
        by_cases hdi : d = i
        · subst hdi
          by_cases hp : p = lbid
          · simp [hp, hfb]
          · simp [hp]
        · simp [hdi, List.mem_cons]

/-- C6 (amended).  A level-1 write that succeeds on some disks and fails on
others returns the degraded-write error naming the failed disks — not
success; when every disk fails it returns the all-replicas-failed error, and
it succeeds only when every disk's write succeeds. -/
theorem raid1_mirror_write_policy (a : ArraySt) (lbid : Nat) (data : List Nat)
    (hlb : lbid < a.blocksPerDisk) (hlen : data.length = a.blockSize) :
    ((∃ i, i < a.numDisks ∧ a.failed i = false) →
      (∃ j, j < a.numDisks ∧ a.failed j = true) →
      (writeBlock1 a lbid data).2 = .error ("degraded write, failed disks: "
        ++ toString ((List.range a.numDisks).filter (fun i => a.failed i)))) ∧
    ((∀ i, i < a.numDisks → a.failed i = true) → 0 < a.numDisks →
      (writeBlock1 a lbid data).2 = .error ("all disks failed to write: " ++ "disk is failed")) ∧
    ((∀ i, i < a.numDisks → a.failed i = false) → 0 < a.numDisks →
      (writeBlock1 a lbid data).2 = .ok ()) := by
  obtain ⟨a1, heq, _, _, _, _, _⟩ :=
    mirrorWriteLoop_spec lbid data (List.range a.numDisks) a 0 [] "" hlb hlen
  have hpart := filter_length_partition (fun i => a.failed i) (List.range a.numDisks)
  refine ⟨?_, ?_, ?_⟩
  · rintro ⟨i, hi, hlive⟩ ⟨j, hj, hfail⟩
    have hmemi : i ∈ (List.range a.numDisks).filter (fun k => !a.failed k) := by
      rw [List.mem_filter]
      exact ⟨List.mem_range.mpr hi, by simp [hlive]⟩
    have hmemj : j ∈ (List.range a.numDisks).filter (fun k => a.failed k) := by
      rw [List.mem_filter]
      exact ⟨List.mem_range.mpr hj, hfail⟩
    have hlive_pos : 0 < ((List.range a.numDisks).filter (fun k => !a.failed k)).length :=
      List.length_pos.mpr (List.ne_nil_of_mem hmemi)
    have hfail_pos : 0 < ((List.range a.numDisks).filter (fun k => a.failed k)).length :=
      List.length_pos.mpr (List.ne_nil_of_mem hmemj)
    have hlen_range : (List.range a.numDisks).length = a.numDisks := List.length_range _
    unfold writeBlock1
    simp only [heq]
    rw [if_neg (by omega), if_pos (by rw [hlen_range] at hpart; omega)]
    simp
  · intro hall hN
    have hnil : (List.range a.numDisks).filter (fun k => !a.failed k) = [] := by
      rw [List.filter_eq_nil_iff]
      intro k hk
      simp [hall k (List.mem_range.mp hk)]
    have hfull : (List.range a.numDisks).filter (fun k => a.failed k) = List.range a.numDisks := by
      rw [List.filter_eq_self]
      intro k hk
      exact hall k (List.mem_range.mp hk)
    unfold writeBlock1
    simp only [heq, hnil, hfull]
    rw [if_neg (show ¬List.range a.numDisks = [] by simp only [ne_eq, List.range_eq_nil]; omega)]
    rw [if_pos (by simp)]
  · intro hall hN
    have hfull : (List.range a.numDisks).filter (fun k => !a.failed k) = List.range a.numDisks := by
      rw [List.filter_eq_self]
      intro k hk
      simp [hall k (List.mem_range.mp hk)]
    have hnil : (List.range a.numDisks).filter (fun k => a.failed k) = [] := by
      rw [List.filter_eq_nil_iff]
      intro k hk
      simp [hall k (List.mem_range.mp hk)]
    unfold writeBlock1
    simp only [heq, hfull, hnil]
    rw [if_neg (by rw [List.length_range]; omega), if_neg (by rw [List.length_range]; omega)]

/-- A two-disk mirror with disk 1 failed, used for claim C6. -/
def degradedSt : ArraySt := setFailed (initSt 2 1 1) 1 true

/-- Counterexample to C6 as stated: with one replica live and one failed, the
mirror write returns an error value (the Go function returns a non-nil
error), not success. -/
theorem raid1_degraded_write_cex :
    (writeBlock1 degradedSt 0 [5]).2
      = .error ("degraded write, failed disks: " ++ toString [1]) ∧
    (writeBlock1 degradedSt 0 [5]).2 ≠ .ok () := by
  have heq : (writeBlock1 degradedSt 0 [5]).2
      = .error ("degraded write, failed disks: " ++ toString [1]) := rfl
  exact ⟨heq, fun hc => by rw [heq] at hc; exact Except.noConfusion hc⟩

/-- Witness for the amended C6 at a concrete state. -/
theorem raid1_mirror_write_policy_witness :
    0 < degradedSt.blocksPerDisk ∧ List.length [5] = degradedSt.blockSize ∧
    (writeBlock1 degradedSt 0 [5]).2 = .error ("degraded write, failed disks: "
      ++ toString ((List.range degradedSt.numDisks).filter (fun i => degradedSt.failed i))) :=
  ⟨by decide, by decide,
    (raid1_mirror_write_policy degradedSt 0 [5] (by decide) (by decide)).1
      ⟨0, by decide⟩ ⟨1, by decide⟩⟩

/-! ### Degraded reads -/

/-- When the data disk is marked failed, the read goes to reconstruction. -/
lemma readBlock5_degraded {a : ArraySt} {lbid : Nat}
    (hf : a.failed (dataDiskOf a.numDisks lbid) = true) :
    readBlock5 a lbid = reconstructBlock a (stripeOf a.numDisks lbid)
      (dataDiskOf a.numDisks lbid) (parityDiskOf a.numDisks lbid) := by
  simp only [readBlock5, dataDiskOf, parityDiskOf] at hf ⊢
  rw [if_pos hf]

lemma reconLoop_ok (sn dd pd : Nat) (l : List Nat) (recon : List Nat) (a : ArraySt)
    (hh : ∀ i ∈ l, ¬(i = pd ∨ i = dd) → a.failed i = false)
    (hsn : sn < a.blocksPerDisk) :
    ∃ a1, reconLoop sn dd pd l recon a
        = (a1, .ok ((l.filter (fun i => !(i == pd || i == dd))).foldl
            (fun acc i => xorBytes acc (a.blocks i sn)) recon)) ∧ SameCore a1 a := by
  induction l generalizing recon a with
  | nil => exact ⟨a, rfl, sameCore_refl a⟩
  | cons i rest ih =>
    by_cases hskip : i = pd ∨ i = dd
    · have hfe : (!(i == pd || i == dd)) = false := by
        rcases hskip with h | h <;> simp [h]
      obtain ⟨a1, heq, hsc⟩ := ih recon a (fun j hj => hh j (List.mem_cons_of_mem i hj)) hsn
      refine ⟨a1, ?_, hsc⟩
      simp only [reconLoop, if_pos hskip, List.filter_cons, hfe, Bool.false_eq_true, if_false]
      exact heq
    · have hte : (!(i == pd || i == dd)) = true := by
        push_neg at hskip
        simp [hskip.1, hskip.2]
      have hfi := hh i (List.mem_cons_self i rest) hskip
      obtain ⟨ar, hrd, hscr⟩ := diskReadBlock_ok hfi hsn
      have hc3 := hscr.2.2.1
      have hc4 := hscr.2.2.2.1
      have hc5 := hscr.2.2.2.2
      obtain ⟨a1, heq, hsc⟩ := ih (xorBytes recon (a.blocks i sn)) ar
        (fun j hj hj2 => by rw [hc4]; exact hh j (List.mem_cons_of_mem i hj) hj2)
        (by rw [hc3]; exact hsn)
      refine ⟨a1, ?_, sameCore_trans hsc hscr⟩
      simp only [reconLoop, if_neg hskip, hfi, Bool.false_eq_true, if_false, hrd,
        List.filter_cons, hte, if_true]
      rw [heq, hc5, List.foldl_cons]

/-- `reconstructBlock` on a stripe that XORs to zero, with every member other
than the missing disk live, returns exactly the missing disk's block, touching
only read counters. -/
lemma reconstructBlock_ok {a : ArraySt} {sn dd pd : Nat}
    (hpd : pd < a.numDisks) (hdd : dd < a.numDisks) (hne : dd ≠ pd)
    (hfpd : a.failed pd = false)
    (hh : ∀ i, i < a.numDisks → ¬(i = pd ∨ i = dd) → a.failed i = false)
    (hsn : sn < a.blocksPerDisk) (hWf : Wf a)
    (hinv : xorStripe a sn = List.replicate a.blockSize 0) :
    ∃ a1, reconstructBlock a sn dd pd = (a1, .ok (a.blocks dd sn)) ∧ SameCore a1 a := by
  obtain ⟨ar, hrd, hscr⟩ := diskReadBlock_ok hfpd hsn
  have hc3 := hscr.2.2.1
  have hc4 := hscr.2.2.2.1
  have hc5 := hscr.2.2.2.2
  obtain ⟨a1, heq, hsc1⟩ := reconLoop_ok sn dd pd (List.range a.numDisks) (a.blocks pd sn) ar
    (fun j hj hj2 => by rw [hc4]; exact hh j (List.mem_range.mp hj) hj2)
    (by rw [hc3]; exact hsn)
  refine ⟨a1, ?_, sameCore_trans hsc1 hscr⟩
  unfold reconstructBlock
  simp only [hfpd, Bool.false_eq_true, if_false, hrd]
  rw [heq]
  simp only [hc5]
  unfold xorStripe at hinv
  rw [foldl_xorBytes_perm (fun j => a.blocks j sn) (perm_split_filter a.numDisks pd dd hpd hdd hne)
    (List.replicate a.blockSize 0)] at hinv
  rw [recon_fold_eq (fun j => a.blocks j sn) a.blockSize pd dd _
    (hWf pd sn) (hWf dd sn) (fun j _ => hWf j sn) hinv]

/-- C2.  On a healthy level-5 array satisfying the parity invariant, marking
one disk failed does not change the result of any read: the read still
succeeds and returns the block the healthy array would have returned. -/
theorem raid5_degraded_read (a : ArraySt) (d lbid : Nat)
    (hN : 3 ≤ a.numDisks) (hd : d < a.numDisks) (hh : Healthy a)
    (hWf : Wf a) (hinv : ParityInv a)
    (hlb : lbid < a.blocksPerDisk * (a.numDisks - 1)) :
    (readBlock5 (setFailed a d true) lbid).2 = (readBlock5 a lbid).2 ∧
    (readBlock5 a lbid).2
      = .ok (a.blocks (dataDiskOf a.numDisks lbid) (stripeOf a.numDisks lbid)) := by
  have hsn : stripeOf a.numDisks lbid < a.blocksPerDisk := stripeOf_lt (by omega) hlb
  have hread : (readBlock5 a lbid).2
      = .ok (a.blocks (dataDiskOf a.numDisks lbid) (stripeOf a.numDisks lbid)) :=
    readBlock5_ok (hh _) (by omega) hlb
  refine ⟨?_, hread⟩
  rw [hread]
  set af := setFailed a d true with haf
  have hafN : af.numDisks = a.numDisks := rfl
  have hafbpd : af.blocksPerDisk = a.blocksPerDisk := rfl
  have haff : ∀ i, af.failed i = if i = d then true else a.failed i := fun i => rfl
  by_cases hddd : dataDiskOf a.numDisks lbid = d
  · have hfdd : af.failed (dataDiskOf af.numDisks lbid) = true := by
      rw [hafN, haff, if_pos hddd]
    have hrec : (reconstructBlock af (stripeOf a.numDisks lbid)
        (dataDiskOf a.numDisks lbid) (parityDiskOf a.numDisks lbid)).2
        = .ok (a.blocks (dataDiskOf a.numDisks lbid) (stripeOf a.numDisks lbid)) := by
      suffices h : ∃ a2, reconstructBlock af (stripeOf a.numDisks lbid)
          (dataDiskOf a.numDisks lbid) (parityDiskOf a.numDisks lbid)
          = (a2, .ok (a.blocks (dataDiskOf a.numDisks lbid) (stripeOf a.numDisks lbid)))
          ∧ SameCore a2 af by
        obtain ⟨a2, h2, -⟩ := h
        rw [h2]
      refine reconstructBlock_ok ?_ ?_ (dataDiskOf_ne_parityDiskOf a.numDisks lbid) ?_ ?_ ?_ ?_ ?_
      · rw [hafN]
        exact parityDiskOf_lt (by omega) lbid
      · rw [hafN]
        exact dataDiskOf_lt (by omega) lbid
      · rw [haff, if_neg (fun hc => (dataDiskOf_ne_parityDiskOf a.numDisks lbid)
          (hddd.trans hc.symm))]
        exact hh _
      · intro i _ hi2
        rw [haff, if_neg (fun hc => hi2 (Or.inr (hc.trans hddd.symm)))]
        exact hh i
      · rw [hafbpd]
        exact hsn
      · exact fun d2 p2 => hWf d2 p2
      · exact hinv _ hsn
    rw [readBlock5_degraded hfdd]
    exact hrec
  · have hfdd : af.failed (dataDiskOf af.numDisks lbid) = false := by
      rw [hafN, haff, if_neg hddd]
      exact hh _
    exact readBlock5_ok hfdd (by rw [hafN]; omega) (by rw [hafbpd, hafN]; exact hlb)

/-- A healthy level-5 state produced by writes, used as the C2 witness. -/
def c2St : ArraySt :=
  (applyWrites (mkArray 5 4 2 3) [(0, [1, 2]), (1, [3, 4]), (4, [7, 8])]).st

/-- Witness for C2: failing disk 1 leaves the value read at block 0
unchanged. -/
theorem raid5_degraded_read_witness :
    (readBlock5 (setFailed c2St 1 true) 0).2 = (readBlock5 c2St 0).2 ∧
    (readBlock5 c2St 0).2
      = .ok (c2St.blocks (dataDiskOf c2St.numDisks 0) (stripeOf c2St.numDisks 0)) :=
  raid5_degraded_read c2St 1 0 (by decide) (by decide)
    ((Good5_applyWrites _ _ (Good5_mkArray 4 2 3 (by decide))).2.2.2.1)
    ((Good5_applyWrites _ _ (Good5_mkArray 4 2 3 (by decide))).2.2.2.2.1)
    ((Good5_applyWrites _ _ (Good5_mkArray 4 2 3 (by decide))).2.2.2.2.2)
    (by decide)

/-! ### Write/read round trips -/

lemma writeBlock0_ok {a : ArraySt} {lbid : Nat} {data : List Nat}
    (hh : Healthy a) (hlen : data.length = a.blockSize)
    (hlb : lbid < a.blocksPerDisk * a.numDisks) :
    ∃ a1, writeBlock0 a lbid data = (a1, .ok ()) ∧
      a1.numDisks = a.numDisks ∧ a1.blockSize = a.blockSize ∧
      a1.blocksPerDisk = a.blocksPerDisk ∧ a1.failed = a.failed ∧
      (∀ d p, a1.blocks d p
        = if d = lbid % a.numDisks ∧ p = lbid / a.numDisks then data else a.blocks d p) := by
  have hN : 0 < a.numDisks := by
    rcases Nat.eq_zero_or_pos a.numDisks with h0 | h
    · rw [h0, Nat.mul_zero] at hlb
      exact absurd hlb (Nat.not_lt_zero _)
    · exact h
  have hp : lbid / a.numDisks < a.blocksPerDisk := (Nat.div_lt_iff_lt_mul hN).2 hlb
  exact diskWriteBlock_ok (hh _) hp hlen

lemma readBlock0_ok {a : ArraySt} {lbid : Nat}
    (hf : a.failed (lbid % a.numDisks) = false) (hN : 0 < a.numDisks)
    (hlb : lbid < a.blocksPerDisk * a.numDisks) :
    (readBlock0 a lbid).2 = .ok (a.blocks (lbid % a.numDisks) (lbid / a.numDisks)) := by
  have hp : lbid / a.numDisks < a.blocksPerDisk := (Nat.div_lt_iff_lt_mul hN).2 hlb
  obtain ⟨ar, hrd, _⟩ := diskReadBlock_ok hf hp
  unfold readBlock0
  rw [hrd]

lemma writeBlock1_ok {a : ArraySt} {lbid : Nat} {data : List Nat}
    (hh : Healthy a) (hlen : data.length = a.blockSize)
    (hlb : lbid < a.blocksPerDisk) (hN : 0 < a.numDisks) :
    ∃ a1, writeBlock1 a lbid data = (a1, .ok ()) ∧
      a1.numDisks = a.numDisks ∧ a1.blockSize = a.blockSize ∧
      a1.blocksPerDisk = a.blocksPerDisk ∧ a1.failed = a.failed ∧
      (∀ d p, a1.blocks d p
        = if d < a.numDisks ∧ p = lbid then data else a.blocks d p) := by
  obtain ⟨a1, heq, m1, m2, m3, m4, m5⟩ :=
    mirrorWriteLoop_spec lbid data (List.range a.numDisks) a 0 [] "" hlb hlen
  have hfull : (List.range a.numDisks).filter (fun k => !a.failed k) = List.range a.numDisks := by
    rw [List.filter_eq_self]
    intro k _
    simp [hh k]
  refine ⟨a1, ?_, m1, m2, m3, m4, ?_⟩
  · unfold writeBlock1
    simp only [heq, hfull]
    rw [if_neg (by rw [List.length_range]; omega), if_neg (by rw [List.length_range]; omega)]
  · intro d p
    rw [m5]
    by_cases hd : d < a.numDisks
    · simp [List.mem_range, hd, hh d]
    · simp [List.mem_range, hd]

lemma readBlock1_ok {a : ArraySt} {lbid : Nat}
    (hh : Healthy a) (hN : 0 < a.numDisks) (hlb : lbid < a.blocksPerDisk) :
    (readBlock1 a lbid).2 = .ok (a.blocks 0 lbid) := by
  obtain ⟨n, hn⟩ : ∃ n, a.numDisks = n + 1 := ⟨a.numDisks - 1, by omega⟩
  refine (raid1_read_first_live a lbid hlb).1 0 ?_
  rw [hn, List.range_succ_eq_map, List.find?_cons]
  simp [hh 0]

/-- Distinct logical blocks at level 5 occupy distinct data cells. -/
lemma raid5_cell_injective {N l1 l2 : Nat}
    (hs : stripeOf N l1 = stripeOf N l2) (hd : dataDiskOf N l1 = dataDiskOf N l2) : l1 = l2 := by
  have hpd : parityDiskOf N l1 = parityDiskOf N l2 := by
    unfold parityDiskOf
    rw [hs]
  rw [dataDiskOf, dataDiskOf, hpd] at hd
  have hoff := skipParity_injective _ hd
  have e1 := Nat.div_add_mod l1 (N - 1)
  have e2 := Nat.div_add_mod l2 (N - 1)
  unfold stripeOf at hs
  unfold stripeOffsetOf at hoff
  rw [← hs, ← hoff] at e2
  exact e1.symm.trans e2

/-- The facade-level invariant used for the round-trip claim: the array keeps
its configuration, stays healthy and well formed, and physical cell
`(dc, pc)` holds the bytes `v`. -/
def Keep (L N bs bpd cap dc pc : Nat) (v : List Nat) (r : RAIDArray) : Prop :=
  r.level = L ∧ r.capacity = cap ∧ r.st.numDisks = N ∧ r.st.blockSize = bs ∧
  r.st.blocksPerDisk = bpd ∧ Healthy r.st ∧ Wf r.st ∧ r.st.blocks dc pc = v

lemma Keep_write0 {N bs bpd cap : Nat} {v : List Nat} {lbidN : Nat} {r : RAIDArray}
    (lbid2 : Int) (data2 : List Nat) (hcap : cap = bpd * N)
    (hk : Keep 0 N bs bpd cap (lbidN % N) (lbidN / N) v r)
    (hne : lbid2 ≠ (lbidN : Int)) :
    Keep 0 N bs bpd cap (lbidN % N) (lbidN / N) v (WriteBlock r lbid2 data2).1 := by
  obtain ⟨hl, hc, hN', hbs, hbpd, hh, hwf, hcell⟩ := hk
  by_cases hb : lbid2 < 0 ∨ (r.capacity : Int) ≤ lbid2
  · rw [WriteBlock, if_pos hb]
    exact ⟨hl, hc, hN', hbs, hbpd, hh, hwf, hcell⟩
  · by_cases hs : data2.length ≠ r.st.blockSize
    · rw [WriteBlock, if_neg hb, if_pos hs]
      exact ⟨hl, hc, hN', hbs, hbpd, hh, hwf, hcell⟩
    · push_neg at hb hs
      have hlb2 : lbid2.toNat < r.st.blocksPerDisk * r.st.numDisks := by
        rw [hbpd, hN', ← hcap, ← hc]
        omega
      obtain ⟨a1, heq, w1, w2, w3, w4, w5⟩ := writeBlock0_ok hh hs hlb2
      have hred : (WriteBlock r lbid2 data2).1 = { r with st := a1 } := by
        simp only [WriteBlock, if_neg (by omega : ¬(lbid2 < 0 ∨ (r.capacity : Int) ≤ lbid2)),
          if_neg (by omega : ¬data2.length ≠ r.st.blockSize), hl, heq]
      rw [hred]
      refine ⟨hl, hc, by rw [w1]; exact hN', by rw [w2]; exact hbs, by rw [w3]; exact hbpd,
        fun d2 => by rw [w4]; exact hh d2, ?_, ?_⟩
      · intro d2 p2
        rw [w5, w2]
        split_ifs
        · rw [hs, hbs]
        · exact hbs ▸ hwf d2 p2
      · rw [w5, if_neg ?_]
        · exact hcell
        · rintro ⟨hd, hp⟩
          apply hne
          rw [hN'] at hd hp
          have e1 := Nat.div_add_mod lbidN N
          have e2 := Nat.div_add_mod lbid2.toNat N
          rw [← hd, ← hp] at e2
          have h3 : lbid2.toNat = lbidN := e2.symm.trans e1
          omega

lemma Keep_write1 {N bs bpd cap : Nat} {v : List Nat} {lbidN : Nat} {r : RAIDArray}
    (lbid2 : Int) (data2 : List Nat) (hcap : cap = bpd) (hN : 0 < N)
    (hk : Keep 1 N bs bpd cap 0 lbidN v r)
    (hne : lbid2 ≠ (lbidN : Int)) :
    Keep 1 N bs bpd cap 0 lbidN v (WriteBlock r lbid2 data2).1 := by
  obtain ⟨hl, hc, hN', hbs, hbpd, hh, hwf, hcell⟩ := hk
  by_cases hb : lbid2 < 0 ∨ (r.capacity : Int) ≤ lbid2
  · rw [WriteBlock, if_pos hb]
    exact ⟨hl, hc, hN', hbs, hbpd, hh, hwf, hcell⟩
  · by_cases hs : data2.length ≠ r.st.blockSize
    · rw [WriteBlock, if_neg hb, if_pos hs]
      exact ⟨hl, hc, hN', hbs, hbpd, hh, hwf, hcell⟩
    · push_neg at hb hs
      have hlb2 : lbid2.toNat < r.st.blocksPerDisk := by
        rw [hbpd, ← hcap, ← hc]
        omega
      obtain ⟨a1, heq, w1, w2, w3, w4, w5⟩ :=
        writeBlock1_ok hh hs hlb2 (by rw [hN']; exact hN)
      have hred : (WriteBlock r lbid2 data2).1 = { r with st := a1 } := by
        simp only [WriteBlock, if_neg (by omega : ¬(lbid2 < 0 ∨ (r.capacity : Int) ≤ lbid2)),
          if_neg (by omega : ¬data2.length ≠ r.st.blockSize), hl, heq]
      rw [hred]
      refine ⟨hl, hc, by rw [w1]; exact hN', by rw [w2]; exact hbs, by rw [w3]; exact hbpd,
        fun d2 => by rw [w4]; exact hh d2, ?_, ?_⟩
      · intro d2 p2
        rw [w5, w2]
        split_ifs
        · rw [hs, hbs]
        · exact hbs ▸ hwf d2 p2
      · rw [w5, if_neg ?_]
        · exact hcell
        · rintro ⟨-, hp⟩
          exact hne (by omega)

lemma Keep_write5 {N bs bpd cap : Nat} {v : List Nat} {lbidN : Nat} {r : RAIDArray}
    (lbid2 : Int) (data2 : List Nat) (hcap : cap = bpd * (N - 1)) (hN : 3 ≤ N)
    (hk : Keep 5 N bs bpd cap (dataDiskOf N lbidN) (stripeOf N lbidN) v r)
    (hne : lbid2 ≠ (lbidN : Int)) :
    Keep 5 N bs bpd cap (dataDiskOf N lbidN) (stripeOf N lbidN) v (WriteBlock r lbid2 data2).1 := by
  obtain ⟨hl, hc, hN', hbs, hbpd, hh, hwf, hcell⟩ := hk
  by_cases hb : lbid2 < 0 ∨ (r.capacity : Int) ≤ lbid2
  · rw [WriteBlock, if_pos hb]
    exact ⟨hl, hc, hN', hbs, hbpd, hh, hwf, hcell⟩
  · by_cases hs : data2.length ≠ r.st.blockSize
    · rw [WriteBlock, if_neg hb, if_pos hs]
      exact ⟨hl, hc, hN', hbs, hbpd, hh, hwf, hcell⟩
    · push_neg at hb hs
      have hlb2 : lbid2.toNat < r.st.blocksPerDisk * (r.st.numDisks - 1) := by
        rw [hbpd, hN', ← hcap, ← hc]
        omega
      obtain ⟨a1, heq, w1, w2, w3, w4, w5⟩ :=
        writeBlock5_ok (by rw [hN']; omega) hh hs hlb2
      have hplen : (newParity r.st lbid2.toNat data2).length = r.st.blockSize := by
        rw [newParity, foldl_xorBytes_length, copyInto_replicate hs, hs]
      have hred : (WriteBlock r lbid2 data2).1 = { r with st := a1 } := by
        simp only [WriteBlock, if_neg (by omega : ¬(lbid2 < 0 ∨ (r.capacity : Int) ≤ lbid2)),
          if_neg (by omega : ¬data2.length ≠ r.st.blockSize), hl, heq]
      rw [hred]
      refine ⟨hl, hc, by rw [w1]; exact hN', by rw [w2]; exact hbs, by rw [w3]; exact hbpd,
        fun d2 => by rw [w4]; exact hh d2, ?_, ?_⟩
      · intro d2 p2
        rw [w5, w2]
        split_ifs
        · rw [hs, hbs]
        · rw [hplen, hbs]
        · exact hbs ▸ hwf d2 p2
      · rw [w5, if_neg ?_, if_neg ?_]
        · exact hcell
        · rintro ⟨hd, hp⟩
          rw [hN'] at hd hp
          have hpdeq : parityDiskOf N lbid2.toNat = parityDiskOf N lbidN := by
            unfold parityDiskOf
            rw [← hp]
          rw [hpdeq] at hd
          exact dataDiskOf_ne_parityDiskOf N lbidN hd
        · rintro ⟨hd, hp⟩
          rw [hN'] at hd hp
          have := raid5_cell_injective hp hd
          exact hne (by omega)

/-- Folding `WriteBlock` over a list of writes that avoid `lb` preserves any
predicate preserved by such single writes. -/
lemma applyWrites_ind (lb : Int) (P : RAIDArray → Prop)
    (step : ∀ (r : RAIDArray) (w : Int × List Nat), w.1 ≠ lb → P r → P (WriteBlock r w.1 w.2).1) :
    ∀ (ws : List (Int × List Nat)) (r : RAIDArray),
      (∀ w ∈ ws, w.1 ≠ lb) → P r → P (applyWrites r ws) := by
  intro ws
  induction ws with
  | nil => exact fun r _ h => h
  | cons w rest ih =>
    intro r hav h
    exact ih _ (fun w2 hw2 => hav w2 (List.mem_cons_of_mem w hw2))
      (step r w (hav w (List.mem_cons_self w rest)) h)

/-- C4.  At every level (0, 1, 5), after a successful `WriteBlock(lbid, data)`
on a healthy array, and any further writes to other logical blocks with no
failures, `ReadBlock(lbid)` succeeds and returns `data`. -/
theorem write_read_roundtrip (r : RAIDArray) (lbid : Int) (data : List Nat)
    (ws : List (Int × List Nat)) (hv : ValidConfig r) (hh : Healthy r.st) (hwf : Wf r.st)
    (hlevel : r.level = 0 ∨ r.level = 1 ∨ r.level = 5)
    (r1 : RAIDArray) (hwr : WriteBlock r lbid data = (r1, .ok ()))
    (havoid : ∀ w ∈ ws, w.1 ≠ lbid) :
    (ReadBlock (applyWrites r1 ws) lbid).2 = .ok data := by
  obtain ⟨hN2, hN5, hbs0, hbpd0, hcapf⟩ := hv
  by_cases hb : lbid < 0 ∨ (r.capacity : Int) ≤ lbid
  · rw [WriteBlock, if_pos hb] at hwr
    exact Except.noConfusion (congrArg Prod.snd hwr)
  by_cases hsz : data.length ≠ r.st.blockSize
  · rw [WriteBlock, if_neg hb, if_pos hsz] at hwr
    exact Except.noConfusion (congrArg Prod.snd hwr)
  push_neg at hsz
  have hb2 : 0 ≤ lbid ∧ lbid < (r.capacity : Int) := by
    push_neg at hb
    exact hb
  have hlint : (lbid.toNat : Int) = lbid := by omega
  have havoid2 : ∀ w ∈ ws, w.1 ≠ (lbid.toNat : Int) := fun w hw hc =>
    havoid w hw (hc.trans hlint)
  rcases hlevel with hl | hl | hl
  · have hcap : r.capacity = r.st.blocksPerDisk * r.st.numDisks := by
      rw [hcapf, hl]
      rfl
    have hlbn : lbid.toNat < r.st.blocksPerDisk * r.st.numDisks := by
      rw [← hcap]
      omega
    obtain ⟨a1, heq, w1, w2, w3, w4, w5⟩ := writeBlock0_ok hh hsz hlbn
    have hr1 : r1 = { r with st := a1 } := by
      have hwb : WriteBlock r lbid data = ({ r with st := a1 }, .ok ()) := by
        simp only [WriteBlock, if_neg hb,
          if_neg (by omega : ¬data.length ≠ r.st.blockSize), hl, heq]
      rw [hwb] at hwr
      exact (congrArg Prod.fst hwr).symm
    have hkeep : Keep 0 r.st.numDisks r.st.blockSize r.st.blocksPerDisk r.capacity
        (lbid.toNat % r.st.numDisks) (lbid.toNat / r.st.numDisks) data (applyWrites r1 ws) := by
      refine applyWrites_ind (lbid.toNat : Int) _
        (fun r2 w hw hk2 => Keep_write0 w.1 w.2 hcap hk2 hw) ws r1 havoid2 ?_
      rw [hr1]
      refine ⟨hl, rfl, w1, w2, w3, fun d2 => by rw [w4]; exact hh d2, ?_, ?_⟩
      · intro d2 p2
        rw [w5, w2]
        split_ifs
        · rw [hsz]
        · exact hwf d2 p2
      · rw [w5, if_pos ⟨rfl, rfl⟩]
    obtain ⟨kl, kc, kN, kbs, kbpd, kh, kwf, kcell⟩ := hkeep
    rw [ReadBlock, if_neg (by rw [kc]; omega)]
    simp only [kl]
    rw [readBlock0_ok (kh _) (by rw [kN]; omega) (by rw [kN, kbpd, ← hcap, ← kc]; omega), kN,
      kcell]
  · have hcap : r.capacity = r.st.blocksPerDisk := by
      rw [hcapf, hl]
      rfl
    have hlbn : lbid.toNat < r.st.blocksPerDisk := by
      rw [← hcap]
      omega
    obtain ⟨a1, heq, w1, w2, w3, w4, w5⟩ := writeBlock1_ok hh hsz hlbn (by omega)
    have hr1 : r1 = { r with st := a1 } := by
      have hwb : WriteBlock r lbid data = ({ r with st := a1 }, .ok ()) := by
        simp only [WriteBlock, if_neg hb,
          if_neg (by omega : ¬data.length ≠ r.st.blockSize), hl, heq]
      rw [hwb] at hwr
      exact (congrArg Prod.fst hwr).symm
    have hkeep : Keep 1 r.st.numDisks r.st.blockSize r.st.blocksPerDisk r.capacity
        0 lbid.toNat data (applyWrites r1 ws) := by
      refine applyWrites_ind (lbid.toNat : Int) _
        (fun r2 w hw hk2 => Keep_write1 w.1 w.2 hcap (by omega) hk2 hw) ws r1 havoid2 ?_
      rw [hr1]
      refine ⟨hl, rfl, w1, w2, w3, fun d2 => by rw [w4]; exact hh d2, ?_, ?_⟩
      · intro d2 p2
        rw [w5, w2]
        split_ifs
        · rw [hsz]
        · exact hwf d2 p2
      · rw [w5, if_pos ⟨by omega, rfl⟩]
    obtain ⟨kl, kc, kN, kbs, kbpd, kh, kwf, kcell⟩ := hkeep
    rw [ReadBlock, if_neg (by rw [kc]; omega)]
    simp only [kl]
    rw [readBlock1_ok kh (by rw [kN]; omega) (by rw [kbpd, ← hcap, ← kc]; omega), kcell]
  · have hN3 : 3 ≤ r.st.numDisks := hN5 hl
    have hcap : r.capacity = r.st.blocksPerDisk * (r.st.numDisks - 1) := by
      rw [hcapf, hl]
      rfl
    have hlbn : lbid.toNat < r.st.blocksPerDisk * (r.st.numDisks - 1) := by
      rw [← hcap]
      omega
    obtain ⟨a1, heq, w1, w2, w3, w4, w5⟩ := writeBlock5_ok (by omega) hh hsz hlbn
    have hplen : (newParity r.st lbid.toNat data).length = r.st.blockSize := by
      rw [newParity, foldl_xorBytes_length, copyInto_replicate hsz, hsz]
    have hr1 : r1 = { r with st := a1 } := by
      have hwb : WriteBlock r lbid data = ({ r with st := a1 }, .ok ()) := by
        simp only [WriteBlock, if_neg hb,
          if_neg (by omega : ¬data.length ≠ r.st.blockSize), hl, heq]
      rw [hwb] at hwr
      exact (congrArg Prod.fst hwr).symm
    have hkeep : Keep 5 r.st.numDisks r.st.blockSize r.st.blocksPerDisk r.capacity
        (dataDiskOf r.st.numDisks lbid.toNat) (stripeOf r.st.numDisks lbid.toNat) data
        (applyWrites r1 ws) := by
      refine applyWrites_ind (lbid.toNat : Int) _
        (fun r2 w hw hk2 => Keep_write5 w.1 w.2 hcap hN3 hk2 hw) ws r1 havoid2 ?_
      rw [hr1]
      refine ⟨hl, rfl, w1, w2, w3, fun d2 => by rw [w4]; exact hh d2, ?_, ?_⟩
      · intro d2 p2
        rw [w5, w2]
        split_ifs
        · rw [hsz]
        · rw [hplen]
        · exact hwf d2 p2
      · rw [w5, if_pos ⟨rfl, rfl⟩]
    obtain ⟨kl, kc, kN, kbs, kbpd, kh, kwf, kcell⟩ := hkeep
    rw [ReadBlock, if_neg (by rw [kc]; omega)]
    simp only [kl]
    rw [readBlock5_ok (by rw [kN]; exact kh _) (by rw [kN]; omega)
      (by rw [kN, kbpd, ← hcap, ← kc]; omega), kN, kcell]

/-- Witness for C4 on a concrete level-5 array: write block 0, write another
block, then read block 0 back. -/
theorem write_read_roundtrip_witness :
    (ReadBlock (applyWrites (WriteBlock (mkArray 5 4 2 3) 0 [1, 2]).1 [(1, [5, 5])]) 0).2
      = .ok [1, 2] :=
  write_read_roundtrip (mkArray 5 4 2 3) 0 [1, 2] [(1, [5, 5])]
    ⟨by decide, fun _ => by decide, by decide, by decide, rfl⟩
    (fun _ => rfl) (fun _ _ => rfl) (Or.inr (Or.inr rfl))
    (WriteBlock (mkArray 5 4 2 3) 0 [1, 2]).1 rfl (by decide)

/-! ### Rebuild -/

lemma rebuildParityLoop_ok (sn pd : Nat) (l : List Nat) (parity : List Nat) (b : ArraySt)
    (hh : ∀ i ∈ l, i ≠ pd → b.failed i = false) (hsn : sn < b.blocksPerDisk) :
    ∃ b1, rebuildParityLoop sn pd l parity b
        = (b1, .ok ((l.filter (fun i => i != pd)).foldl
            (fun acc i => xorBytes acc (b.blocks i sn)) parity)) ∧ SameCore b1 b := by
  induction l generalizing parity b with
  | nil => exact ⟨b, rfl, sameCore_refl b⟩
  | cons i rest ih =>
    by_cases hip : i = pd
    · have hfe : (i != pd) = false := by simp [hip]
      obtain ⟨b1, heq, hsc⟩ := ih parity b (fun j hj => hh j (List.mem_cons_of_mem i hj)) hsn
      refine ⟨b1, ?_, hsc⟩
      simp only [rebuildParityLoop, if_pos hip, List.filter_cons, hfe, Bool.false_eq_true,
        if_false]
      exact heq
    · have hte : (i != pd) = true := by simp [hip]
      have hfi := hh i (List.mem_cons_self i rest) hip
      obtain ⟨br, hrd, hscr⟩ := diskReadBlock_ok hfi hsn
      have hc3 := hscr.2.2.1
      have hc4 := hscr.2.2.2.1
      have hc5 := hscr.2.2.2.2
      obtain ⟨b1, heq, hsc⟩ := ih (xorBytes parity (b.blocks i sn)) br
        (fun j hj hj2 => by rw [hc4]; exact hh j (List.mem_cons_of_mem i hj) hj2)
        (by rw [hc3]; exact hsn)
      refine ⟨b1, ?_, sameCore_trans hsc hscr⟩
      simp only [rebuildParityLoop, if_neg hip, hrd, List.filter_cons, hte, if_true]
      rw [heq, hc5, List.foldl_cons]

lemma rebuildDataLoop_found (b : ArraySt) (sn pd dI : Nat) :
    ∀ (l : List Nat), (∃ off ∈ l, skipParity pd off = dI) →
      rebuildDataLoop b sn pd dI l
        = (match reconstructBlock b sn dI pd with
           | (b1, .error e) => (b1, .error ("rebuild failed reconstructing stripe: " ++ e))
           | (b1, .ok reconstructed) =>
             match diskWriteBlock b1 dI sn reconstructed with
             | (b2, .error e) => (b2, .error ("rebuild failed writing stripe: " ++ e))
             | (b2, .ok _) => (b2, .ok ())) := by
  intro l
  induction l with
  | nil =>
    rintro ⟨off, hoff, -⟩
    exact absurd hoff (List.not_mem_nil off)
  | cons o rest ih =>
    rintro ⟨off, hoff, hskip⟩
    by_cases ho : skipParity pd o = dI
    · simp only [rebuildDataLoop, if_pos ho]
    · rcases List.mem_cons.mp hoff with rfl | hmem
      · exact absurd hskip ho
      · simp only [rebuildDataLoop, if_neg ho]
        exact ih ⟨off, hmem, hskip⟩

lemma skipParity_surj {N pd dI : Nat} (hpd : pd < N) (hdI : dI < N) (hne : dI ≠ pd) :
    ∃ off ∈ List.range (N - 1), skipParity pd off = dI := by
  refine ⟨if pd < dI then dI - 1 else dI, List.mem_range.mpr ?_, ?_⟩
  · split_ifs <;> omega
  · simp only [skipParity]
    split_ifs <;> omega

/-- One pass of the rebuild loop over stripes that already satisfy the parity
invariant writes back exactly the values the disks already hold. -/
lemma rebuildStripeLoop_id (a : ArraySt) (d : Nat) (hN : 3 ≤ a.numDisks) (hd : d < a.numDisks)
    (hWf : Wf a) (hinv : ParityInv a) :
    ∀ (l : List Nat) (b : ArraySt), (∀ s ∈ l, s < a.blocksPerDisk) →
      b.numDisks = a.numDisks → b.blockSize = a.blockSize → b.blocksPerDisk = a.blocksPerDisk →
      (∀ d2, b.failed d2 = false) → (∀ d2 p, b.blocks d2 p = a.blocks d2 p) →
      ∃ b1, rebuildStripeLoop d l b = (b1, .ok ()) ∧
        b1.numDisks = a.numDisks ∧ b1.blockSize = a.blockSize ∧
        b1.blocksPerDisk = a.blocksPerDisk ∧
        (∀ d2, b1.failed d2 = false) ∧ (∀ d2 p, b1.blocks d2 p = a.blocks d2 p) := by
  intro l
  induction l with
  | nil =>
    intro b _ e1 e2 e3 e4 e5
    exact ⟨b, rfl, e1, e2, e3, e4, e5⟩
  | cons s rest ih =>
    intro b hmem e1 e2 e3 e4 e5
    have hs : s < a.blocksPerDisk := hmem s (List.mem_cons_self s rest)
    have hsb : s < b.blocksPerDisk := by rw [e3]; exact hs
    have hbWf : Wf b := by
      intro d2 p
      rw [e5, e2]
      exact hWf d2 p
    have hbinv : xorStripe b s = List.replicate b.blockSize 0 := by
      have hcongr : xorStripe b s = xorStripe a s := by
        unfold xorStripe
        rw [e1, e2]
        exact foldl_congr_fun (fun acc i _ => by rw [e5])
      rw [hcongr, e2]
      exact hinv s hs
    by_cases hdp : d = s % b.numDisks
    · -- parity stripe: recompute parity of the other members
      obtain ⟨bL, hL, hscL⟩ := rebuildParityLoop_ok s d (List.range b.numDisks)
        (List.replicate b.blockSize 0) b (fun i _ _ => e4 i) hsb
      have hLval : ((List.range b.numDisks).filter (fun i => i != d)).foldl
          (fun acc i => xorBytes acc (b.blocks i s)) (List.replicate b.blockSize 0)
          = b.blocks d s := by
        have hperm := perm_split_one b.numDisks d (by rw [e1]; exact hd)
        have hinv2 := hbinv
        unfold xorStripe at hinv2
        rw [foldl_xorBytes_perm (fun j => b.blocks j s) hperm (List.replicate b.blockSize 0)]
          at hinv2
        exact parity_rebuild_fold_eq (fun j => b.blocks j s) b.blockSize d _
          (hbWf d s) (fun j _ => hbWf j s) hinv2
      have hc1 := hscL.1
      have hc2 := hscL.2.1
      have hc3 := hscL.2.2.1
      have hc4 := hscL.2.2.2.1
      have hc5 := hscL.2.2.2.2
      obtain ⟨bW, hW, v1, v2, v3, v4, v5⟩ := @diskWriteBlock_ok bL d s (b.blocks d s)
        (by rw [hc4]; exact e4 d) (by rw [hc3]; exact hsb) (by rw [hc2, e2, e5]; exact hWf d s)
      obtain ⟨b1, heq, f1, f2, f3, f4, f5⟩ := ih bW
        (fun s2 hs2 => hmem s2 (List.mem_cons_of_mem s hs2))
        (by rw [v1, hc1]; exact e1) (by rw [v2, hc2]; exact e2) (by rw [v3, hc3]; exact e3)
        (fun d2 => by rw [v4, hc4]; exact e4 d2)
        (fun d2 p => by
          rw [v5, hc5]
          split_ifs with hcond
          · rw [hcond.1, hcond.2]
            exact e5 d s
          · exact e5 d2 p)
      refine ⟨b1, ?_, f1, f2, f3, f4, f5⟩
      simp only [rebuildStripeLoop, if_pos hdp, rebuildParityBlock]
      rw [hL]
      simp only [hLval, hW]
      exact heq
    · -- data stripe: reconstruct the block that belongs on `d`
      have hpdlt : s % b.numDisks < b.numDisks := Nat.mod_lt _ (by omega)
      obtain ⟨bR, hR, hscR⟩ := @reconstructBlock_ok b s d (s % b.numDisks)
        hpdlt (by rw [e1]; exact hd) hdp (e4 _)
        (fun i _ _ => e4 i) hsb hbWf hbinv
      have hc1 := hscR.1
      have hc2 := hscR.2.1
      have hc3 := hscR.2.2.1
      have hc4 := hscR.2.2.2.1
      have hc5 := hscR.2.2.2.2
      obtain ⟨bW, hW, v1, v2, v3, v4, v5⟩ := @diskWriteBlock_ok bR d s (b.blocks d s)
        (by rw [hc4]; exact e4 d) (by rw [hc3]; exact hsb) (by rw [hc2, e2, e5]; exact hWf d s)
      obtain ⟨b1, heq, f1, f2, f3, f4, f5⟩ := ih bW
        (fun s2 hs2 => hmem s2 (List.mem_cons_of_mem s hs2))
        (by rw [v1, hc1]; exact e1) (by rw [v2, hc2]; exact e2) (by rw [v3, hc3]; exact e3)
        (fun d2 => by rw [v4, hc4]; exact e4 d2)
        (fun d2 p => by
          rw [v5, hc5]
          split_ifs with hcond
          · rw [hcond.1, hcond.2]
            exact e5 d s
          · exact e5 d2 p)
      refine ⟨b1, ?_, f1, f2, f3, f4, f5⟩
      simp only [rebuildStripeLoop, if_neg hdp]
      rw [rebuildDataLoop_found b s (s % b.numDisks) d (List.range (b.numDisks - 1))
        (skipParity_surj hpdlt (by rw [e1]; exact hd) hdp)]
      simp only [hR, hW]
      exact heq

/-- C3.  Rebuilding the single failed disk of a level-5 array on which the
parity invariant holds succeeds; afterwards the disk's failed flag is clear,
no block of any disk changed (each rebuilt block equals the engine's
reconstruction from the survivors), the parity invariant holds, and every
logical block reads back as before. -/
theorem raid5_rebuild (a : ArraySt) (d : Nat)
    (hN : 3 ≤ a.numDisks) (hd : d < a.numDisks)
    (hfail : ∀ d2, a.failed d2 = decide (d2 = d))
    (hWf : Wf a) (hinv : ParityInv a) :
    (rebuildDisk5 a (d : Int)).2 = .ok () ∧
    (∀ d2, (rebuildDisk5 a (d : Int)).1.failed d2 = false) ∧
    (∀ d2 p, (rebuildDisk5 a (d : Int)).1.blocks d2 p = a.blocks d2 p) ∧
    ParityInv (rebuildDisk5 a (d : Int)).1 ∧
    (∀ s, s < a.blocksPerDisk → d ≠ s % a.numDisks →
      (reconstructBlock (rebuildDisk5 a (d : Int)).1 s d (s % a.numDisks)).2
        = .ok ((rebuildDisk5 a (d : Int)).1.blocks d s)) ∧
    (∀ lbid, lbid < a.blocksPerDisk * (a.numDisks - 1) →
      (readBlock5 (rebuildDisk5 a (d : Int)).1 lbid).2
        = .ok (a.blocks (dataDiskOf a.numDisks lbid) (stripeOf a.numDisks lbid))) := by
  have htn : ((d : Int)).toNat = d := by omega
  have hguard1 : ¬((d : Int) < 0 ∨ (a.numDisks : Int) ≤ (d : Int)) := by omega
  have hguard2 : ¬(a.failed ((d : Int)).toNat = false) := by
    rw [htn, hfail d]
    simp
  have hred : rebuildDisk5 a (d : Int)
      = rebuildStripeLoop d (List.range a.blocksPerDisk) (setFailed a d false) := by
    unfold rebuildDisk5
    rw [if_neg hguard1, if_neg hguard2, htn]
  obtain ⟨b1, heq, f1, f2, f3, f4, f5⟩ := rebuildStripeLoop_id a d hN hd hWf hinv
    (List.range a.blocksPerDisk) (setFailed a d false)
    (fun s hs => List.mem_range.mp hs) rfl rfl rfl
    (fun d2 => by
      show (if d2 = d then false else a.failed d2) = false
      split_ifs with h
      · rfl
      · rw [hfail d2]
        simp [h])
    (fun d2 p => rfl)
  rw [hred, heq]
  have hcongr : ∀ s, xorStripe b1 s = xorStripe a s := fun s => by
    unfold xorStripe
    rw [f1, f2]
    exact foldl_congr_fun (fun acc i _ => by rw [f5])
  have hb1Wf : Wf b1 := fun d2 p => by
    rw [f5, f2]
    exact hWf d2 p
  refine ⟨rfl, f4, f5, ?_, ?_, ?_⟩
  · intro s hs
    rw [hcongr s, f2]
    exact hinv s (by rw [← f3]; exact hs)
  · intro s hs hdp
    have hbinv : xorStripe b1 s = List.replicate b1.blockSize 0 := by
      rw [hcongr s, f2]
      exact hinv s hs
    obtain ⟨b2, h2, -⟩ := @reconstructBlock_ok b1 s d (s % a.numDisks)
      (by rw [f1]; exact Nat.mod_lt _ (by omega)) (by rw [f1]; exact hd)
      hdp
      (f4 _) (fun i _ _ => f4 i) (by rw [f3]; exact hs) hb1Wf hbinv
    rw [h2]
  · intro lbid hlb
    rw [readBlock5_ok (f4 _) (by rw [f1]; omega) (by rw [f3, f1]; exact hlb), f1, f5]

/-- The C2 state with disk 2 additionally marked failed, for the C3 witness. -/
def c3St : ArraySt := setFailed c2St 2 true

/-- Witness for C3: rebuilding disk 2 of a written-to 4-disk array. -/
theorem raid5_rebuild_witness :
    (rebuildDisk5 c3St (2 : Nat)).2 = .ok () ∧
    (∀ d2, (rebuildDisk5 c3St (2 : Nat)).1.failed d2 = false) ∧
    (∀ d2 p, (rebuildDisk5 c3St (2 : Nat)).1.blocks d2 p = c3St.blocks d2 p) ∧
    ParityInv (rebuildDisk5 c3St (2 : Nat)).1 ∧
    (∀ s, s < c3St.blocksPerDisk → 2 ≠ s % c3St.numDisks →
      (reconstructBlock (rebuildDisk5 c3St (2 : Nat)).1 s 2 (s % c3St.numDisks)).2
        = .ok ((rebuildDisk5 c3St (2 : Nat)).1.blocks 2 s)) ∧
    (∀ lbid, lbid < c3St.blocksPerDisk * (c3St.numDisks - 1) →
      (readBlock5 (rebuildDisk5 c3St (2 : Nat)).1 lbid).2
        = .ok (c3St.blocks (dataDiskOf c3St.numDisks lbid) (stripeOf c3St.numDisks lbid))) :=
  raid5_rebuild c3St 2 (by decide) (by decide)
    (fun d2 => by
      show (if d2 = 2 then true else c2St.failed d2) = decide (d2 = 2)
      split_ifs with h
      · simp [h]
      · rw [show c2St.failed d2 = false from rfl]
        simp [h])
    ((Good5_applyWrites _ [(0, [1, 2]), (1, [3, 4]), (4, [7, 8])]
      (Good5_mkArray 4 2 3 (by decide))).2.2.2.2.1)
    ((Good5_applyWrites _ [(0, [1, 2]), (1, [3, 4]), (4, [7, 8])]
      (Good5_mkArray 4 2 3 (by decide))).2.2.2.2.2)

/-! ### Rebuild abort on a second failure -/

lemma diskReadBlock_failed (a : ArraySt) (d p : Nat) :
    (diskReadBlock a d p).1.failed = a.failed := by
  unfold diskReadBlock
  split_ifs <;> rfl

lemma reconLoop_err (sn dd pd : Nat) :
    ∀ (l : List Nat) (recon : List Nat) (a : ArraySt),
      (∃ i ∈ l, ¬(i = pd ∨ i = dd) ∧ a.failed i = true) →
      ∃ a1 e, reconLoop sn dd pd l recon a = (a1, .error e) := by
  intro l
  induction l with
  | nil =>
    rintro recon a ⟨i, hi, -⟩
    exact absurd hi (List.not_mem_nil i)
  | cons j rest ih =>
    rintro recon a ⟨i, hi, hnskip, hfail⟩
    by_cases hjskip : j = pd ∨ j = dd
    · rcases List.mem_cons.mp hi with rfl | hmem
      · exact absurd hjskip hnskip
      · obtain ⟨a1, e, h⟩ := ih recon a ⟨i, hmem, hnskip, hfail⟩
        exact ⟨a1, e, by simp only [reconLoop, if_pos hjskip]; exact h⟩
    · by_cases hjf : a.failed j = true
      · exact ⟨a, "cannot reconstruct: multiple disk failures",
          by simp only [reconLoop, if_neg hjskip, hjf, if_true]⟩
      · have hjfb : a.failed j = false := by simpa using hjf
        have hine : i ≠ j := fun hc => by
          rw [hc, hjfb] at hfail
          exact Bool.noConfusion hfail
        have hmem : i ∈ rest := by
          rcases List.mem_cons.mp hi with rfl | hmem
          · exact absurd rfl hine
          · exact hmem
        rcases hrd : diskReadBlock a j sn with ⟨ar, res⟩
        have harf : ar.failed = a.failed := by
          have := diskReadBlock_failed a j sn
          rw [hrd] at this
          exact this
        cases res with
        | error e =>
          refine ⟨ar, "failed to read disk for reconstruction: " ++ e, ?_⟩
          simp only [reconLoop, if_neg hjskip, hjfb, Bool.false_eq_true, if_false, hrd]
        | ok bd =>
          obtain ⟨a1, e, h⟩ := ih (xorBytes recon bd) ar ⟨i, hmem, hnskip, by
            rw [harf]; exact hfail⟩
          refine ⟨a1, e, ?_⟩
          simp only [reconLoop, if_neg hjskip, hjfb, Bool.false_eq_true, if_false, hrd]
          exact h

lemma reconstructBlock_err (a : ArraySt) (sn dd pd : Nat)
    (h : a.failed pd = true ∨ ∃ i, i < a.numDisks ∧ ¬(i = pd ∨ i = dd) ∧ a.failed i = true) :
    ∃ a1 e, reconstructBlock a sn dd pd = (a1, .error e) := by
  by_cases hpdf : a.failed pd = true
  · exact ⟨a, _, by unfold reconstructBlock; rw [if_pos hpdf]⟩
  · have hpdb : a.failed pd = false := by simpa using hpdf
    rcases h with hpd | ⟨i, hi, hnskip, hfail⟩
    · exact absurd hpd hpdf
    rcases hrd : diskReadBlock a pd sn with ⟨ar, res⟩
    have harf : ar.failed = a.failed := by
      have := diskReadBlock_failed a pd sn
      rw [hrd] at this
      exact this
    cases res with
    | error e =>
      refine ⟨ar, "failed to read parity: " ++ e, ?_⟩
      unfold reconstructBlock
      rw [if_neg hpdf, hrd]
    | ok bd =>
      obtain ⟨a1, e, hl⟩ := reconLoop_err sn dd pd (List.range a.numDisks) bd ar
        ⟨i, List.mem_range.mpr hi, hnskip, by rw [harf]; exact hfail⟩
      refine ⟨a1, e, ?_⟩
      unfold reconstructBlock
      rw [if_neg hpdf, hrd]
      exact hl

lemma rebuildParityLoop_err (sn pd : Nat) :
    ∀ (l parity : List Nat) (a : ArraySt), (∃ i ∈ l, i ≠ pd ∧ a.failed i = true) →
      ∃ a1 e, rebuildParityLoop sn pd l parity a = (a1, .error e) := by
  intro l
  induction l with
  | nil =>
    rintro parity a ⟨i, hi, -⟩
    exact absurd hi (List.not_mem_nil i)
  | cons j rest ih =>
    rintro parity a ⟨i, hi, hine, hfail⟩
    by_cases hjp : j = pd
    · rcases List.mem_cons.mp hi with rfl | hmem
      · exact absurd hjp hine
      · obtain ⟨a1, e, h⟩ := ih parity a ⟨i, hmem, hine, hfail⟩
        exact ⟨a1, e, by simp only [rebuildParityLoop, if_pos hjp]; exact h⟩
    · rcases hrd : diskReadBlock a j sn with ⟨ar, res⟩
      have harf : ar.failed = a.failed := by
        have := diskReadBlock_failed a j sn
        rw [hrd] at this
        exact this
      cases res with
      | error e =>
        refine ⟨ar, "failed to read disk: " ++ e, ?_⟩
        simp only [rebuildParityLoop, if_neg hjp, hrd]
      | ok bd =>
        have hjfb : a.failed j = false := by
          by_contra hc
          rw [Bool.not_eq_false] at hc
          unfold diskReadBlock at hrd
          rw [if_pos hc] at hrd
          exact Except.noConfusion (congrArg Prod.snd hrd)
        have hine2 : i ≠ j := fun hc => by
          rw [hc, hjfb] at hfail
          exact Bool.noConfusion hfail
        have hmem : i ∈ rest := by
          rcases List.mem_cons.mp hi with rfl | hmem
          · exact absurd rfl hine2
          · exact hmem
        obtain ⟨a1, e, h⟩ := ih (xorBytes parity bd) ar ⟨i, hmem, hine, by
          rw [harf]; exact hfail⟩
        refine ⟨a1, e, ?_⟩
        simp only [rebuildParityLoop, if_neg hjp, hrd]
        exact h

/-- C7.  If a second disk is failed while `rebuildDisk` runs, the rebuild
aborts with an error and the target disk's failed flag is restored to `true`
before the error is returned. -/
theorem rebuild_second_failure (a : ArraySt) (d d2 : Nat)
    (hd : d < a.numDisks) (hfd : a.failed d = true)
    (hd2 : d2 < a.numDisks) (hne : d2 ≠ d) (hfd2 : a.failed d2 = true)
    (hbpd : 0 < a.blocksPerDisk) :
    (∃ e, (rebuildDisk5 a (d : Int)).2 = .error e) ∧
    (rebuildDisk5 a (d : Int)).1.failed d = true := by
  have htn : ((d : Int)).toNat = d := by omega
  have hguard1 : ¬((d : Int) < 0 ∨ (a.numDisks : Int) ≤ (d : Int)) := by omega
  have hguard2 : ¬(a.failed ((d : Int)).toNat = false) := by
    rw [htn, hfd]
    simp
  have hred : rebuildDisk5 a (d : Int)
      = rebuildStripeLoop d (List.range a.blocksPerDisk) (setFailed a d false) := by
    unfold rebuildDisk5
    rw [if_neg hguard1, if_neg hguard2, htn]
  obtain ⟨m, hm⟩ : ∃ m, a.blocksPerDisk = m + 1 := ⟨a.blocksPerDisk - 1, by omega⟩
  set a0 := setFailed a d false with ha0
  have ha0N : a0.numDisks = a.numDisks := rfl
  have ha0f : ∀ i, i ≠ d → a0.failed i = a.failed i := fun i hi => by
    show (if i = d then false else a.failed i) = a.failed i
    rw [if_neg hi]
  have hf2 : a0.failed d2 = true := by
    rw [ha0f d2 hne]
    exact hfd2
  rw [hred, hm, List.range_succ_eq_map]
  by_cases hd0 : d = 0 % a0.numDisks
  · obtain ⟨a1, e, hloop⟩ := rebuildParityLoop_err 0 d (List.range a0.numDisks)
      (List.replicate a0.blockSize 0) a0
      ⟨d2, List.mem_range.mpr (by rw [ha0N]; exact hd2), hne, hf2⟩
    constructor
    · refine ⟨"rebuild failed at stripe: " ++ e, ?_⟩
      simp only [rebuildStripeLoop, if_pos hd0, rebuildParityBlock, hloop]
    · simp only [rebuildStripeLoop, if_pos hd0, rebuildParityBlock, hloop]
      simp [setFailed]
  · have hpd0 : (0 : Nat) % a0.numDisks = 0 := Nat.zero_mod _
    have hdne0 : d ≠ 0 := by
      rw [hpd0] at hd0
      exact hd0
    have hcond : a0.failed (0 % a0.numDisks) = true ∨
        ∃ i, i < a0.numDisks ∧ ¬(i = 0 % a0.numDisks ∨ i = d) ∧ a0.failed i = true := by
      by_cases hz : d2 = 0
      · refine Or.inl ?_
        rw [hpd0, ← hz]
        exact hf2
      · refine Or.inr ⟨d2, by rw [ha0N]; exact hd2, ?_, hf2⟩
        rw [hpd0]
        push_neg
        exact ⟨hz, hne⟩
    obtain ⟨aR, e, hrec⟩ := reconstructBlock_err a0 0 d (0 % a0.numDisks) hcond
    have hfound := rebuildDataLoop_found a0 0 (0 % a0.numDisks) d
      (List.range (a0.numDisks - 1))
      (skipParity_surj (Nat.mod_lt _ (by rw [ha0N]; omega))
        (by rw [ha0N]; exact hd) hd0)
    rw [hrec] at hfound
    constructor
    · refine ⟨"rebuild failed reconstructing stripe: " ++ e, ?_⟩
      simp only [rebuildStripeLoop, if_neg hd0, hfound]
    · simp only [rebuildStripeLoop, if_neg hd0, hfound]
      simp [setFailed]

/-- The C2 state with disks 1 and 3 both failed, for the C7 witness. -/
def c7St : ArraySt := setFailed (setFailed c2St 1 true) 3 true

/-- Witness for C7: rebuilding disk 1 while disk 3 is also failed aborts and
restores disk 1's failed flag. -/
theorem rebuild_second_failure_witness :
    (∃ e, (rebuildDisk5 c7St (1 : Nat)).2 = .error e) ∧
    (rebuildDisk5 c7St (1 : Nat)).1.failed 1 = true :=
  rebuild_second_failure c7St 1 3 (by decide) (by decide) (by decide) (by decide)
    (by decide) (by decide)

end SoftRaid
